/-
  Verification of the Brillouin-zone visualiser core
  (src/core/math.js, src/core/lattice.js, src/core/brillouin.js, src/main.js).

  Shallow embedding over ℝ: JS number arithmetic is modelled by real
  arithmetic, JS arrays [x,y] / [x,y,z] by pairs/triples of reals, and the
  stable Array.prototype.sort by List.mergeSort with the same comparator.
-/
import Mathlib

set_option maxHeartbeats 1000000

namespace BZV

/-- 2D vector, modelling a JS array `[x, y]`. -/
abbrev Vec2 : Type := ℝ × ℝ

/-- 3D vector, modelling a JS array `[x, y, z]`. -/
abbrev Vec3 : Type := ℝ × ℝ × ℝ

/-- The tolerance `1e-9` used throughout the half-space membership tests. -/
noncomputable def eps : ℝ := 1 / 1000000000

/-- math.js `vdot` on 2-component vectors. -/
def vdot (a b : Vec2) : ℝ := a.1 * b.1 + a.2 * b.2

/-- math.js `vdot` on 3-component vectors. -/
def vdot3 (a b : Vec3) : ℝ := a.1 * b.1 + a.2.1 * b.2.1 + a.2.2 * b.2.2

/-- math.js `vsub` on 2-component vectors. -/
def vsub (a b : Vec2) : Vec2 := (a.1 - b.1, a.2 - b.2)

/-- math.js `vlength` on 2-component vectors. -/
noncomputable def vlength (a : Vec2) : ℝ := Real.sqrt (vdot a a)

/-- math.js `vlength` on 3-component vectors. -/
noncomputable def vlength3 (a : Vec3) : ℝ := Real.sqrt (vdot3 a a)

/-- math.js `vdist`. -/
noncomputable def vdist (a b : Vec2) : ℝ := vlength (vsub a b)

/-- math.js `vlerp`: `a.map((v, i) => v + (b[i] - v) * t)`. -/
def vlerp (a b : Vec2) (t : ℝ) : Vec2 :=
  (a.1 + (b.1 - a.1) * t, a.2 + (b.2 - a.2) * t)

/-- math.js `vscale` on 3-component vectors. -/
def vscale3 (a : Vec3) (s : ℝ) : Vec3 := (a.1 * s, a.2.1 * s, a.2.2 * s)

/-- math.js `vcross` (3D only). -/
def vcross (a b : Vec3) : Vec3 :=
  (a.2.1 * b.2.2 - a.2.2 * b.2.1,
   a.2.2 * b.1 - a.1 * b.2.2,
   a.1 * b.2.1 - a.2.1 * b.1)

/-- The cyclically consecutive pairs `(vertices[i], vertices[(i+1) % n])`
traversed by the Sutherland–Hodgman loop in math.js `clipPolygonByPlane2D`. -/
def cyclePairs {β : Type} (l : List β) : List (β × β) := l.zip (l.rotate 1)

/-- math.js `clipPolygonByPlane2D`: Sutherland–Hodgman clip of a polygon by
the half-plane `normal · x ≤ d`, with tolerance `eps` exactly as in the
source (`dc <= 1e-9` keeps a vertex, a sign change inserts the interpolated
crossing point at parameter `t = dc / (dc - dn)`). -/
noncomputable def clipPolygonByPlane2D (vertices : List Vec2) (normal : Vec2) (d : ℝ) :
    List Vec2 :=
  (cyclePairs vertices).flatMap fun p =>
    let dc := vdot normal p.1 - d
    let dn := vdot normal p.2 - d
    if dc ≤ eps then
      p.1 :: (if eps < dn then [vlerp p.1 p.2 (dc / (dc - dn))] else [])
    else if dn ≤ eps then
      [vlerp p.1 p.2 (dc / (dc - dn))]
    else
      []

/-- JS `Math.atan2 y x`, modelled by the argument of the complex number
`x + y·i` (range `(-π, π]`, agreeing with `Math.atan2`). -/
noncomputable def atan2 (y x : ℝ) : ℝ := Complex.arg (Complex.mk x y)

/-- math.js `sortPointsCCW`: sort 2D points counter-clockwise (ascending
`atan2` angle) around their centroid.  JS `Array.prototype.sort` is a stable
comparison sort, modelled by `List.mergeSort`. -/
noncomputable def sortPointsCCW (points : List Vec2) : List Vec2 :=
  if points.length ≤ 2 then points
  else
    let cx := (points.map Prod.fst).sum / points.length
    let cy := (points.map Prod.snd).sum / points.length
    points.mergeSort fun a b =>
      decide (atan2 (a.2 - cy) (a.1 - cx) ≤ atan2 (b.2 - cy) (b.1 - cx))

/-- A 2D lattice record: `{ a1, a2, name }` as returned by the `LATTICE_2D`
generator functions in lattice.js. -/
structure Lattice2D where
  a1 : Vec2
  a2 : Vec2
  name : String

/-- A 3D lattice record: `{ a1, a2, a3, name }`. -/
structure Lattice3D where
  a1 : Vec3
  a2 : Vec3
  a3 : Vec3
  name : String

/-- lattice.js `LATTICE_2D`: string-keyed map from lattice-type tag to a
basis generator (two scale parameters; `square`/`hexagonal` ignore the
second, matching the one-parameter JS functions).  An unknown tag has no
entry, modelled by `none`. -/
noncomputable def LATTICE_2D (ty : String) : Option (ℝ → ℝ → Lattice2D) :=
  if ty = "square" then
    some fun a _ => ⟨(a, 0), (0, a), "Square"⟩
  else if ty = "rectangular" then
    some fun a b => ⟨(a, 0), (0, b), "Rectangular"⟩
  else if ty = "hexagonal" then
    some fun a _ =>
      ⟨(a, 0), (a * Real.cos (Real.pi / 3), a * Real.sin (Real.pi / 3)), "Hexagonal"⟩
  else
    none

/-- lattice.js `LATTICE_3D`. -/
noncomputable def LATTICE_3D (ty : String) : Option (ℝ → Lattice3D) :=
  if ty = "cubic" then
    some fun a => ⟨(a, 0, 0), (0, a, 0), (0, 0, a), "Simple Cubic"⟩
  else if ty = "fcc" then
    some fun a => ⟨(0, a / 2, a / 2), (a / 2, 0, a / 2), (a / 2, a / 2, 0), "FCC"⟩
  else if ty = "bcc" then
    some fun a =>
      ⟨(a / 2, a / 2, -a / 2), (-a / 2, a / 2, a / 2), (a / 2, -a / 2, a / 2), "BCC"⟩
  else
    none

/-- lattice.js `reciprocal2D`: `det = a1×a2` (2D scalar cross),
`factor = 2π/det`, `b1 = (a2[1]·factor, -a2[0]·factor)`,
`b2 = (-a1[1]·factor, a1[0]·factor)`.  The source performs no degeneracy
check; the division is taken as-is (real-field convention `x/0 = 0`, where
JS would produce `Infinity`/`NaN` components — in neither semantics is an
error raised). -/
noncomputable def reciprocal2D (a1 a2 : Vec2) : Vec2 × Vec2 :=
  let det := a1.1 * a2.2 - a1.2 * a2.1
  let factor := 2 * Real.pi / det
  ((a2.2 * factor, -a2.1 * factor), (-a1.2 * factor, a1.1 * factor))

/-- lattice.js `reciprocal3D`: `vol = a1·(a2×a3)`, `factor = 2π/vol`,
`b_i = factor · (a_j × a_k)`.  No degeneracy check in the source. -/
noncomputable def reciprocal3D (a1 a2 a3 : Vec3) : Vec3 × Vec3 × Vec3 :=
  let a2xa3 := vcross a2 a3
  let a3xa1 := vcross a3 a1
  let a1xa2 := vcross a1 a2
  let vol := vdot3 a1 a2xa3
  let factor := 2 * Real.pi / vol
  (vscale3 a2xa3 factor, vscale3 a3xa1 factor, vscale3 a1xa2 factor)

/-- Modelled from the spec: §4.3/§7 describe `reciprocal2D` as failing with
`DegenerateBasis` when `|det| < ε` and otherwise returning the standard
dual-basis formulas; this guard is absent from src/core/lattice.js, so the
checked variant is reconstructed here from the spec's words for comparison. -/
noncomputable def reciprocal2Dspec (a1 a2 : Vec2) : Option (Vec2 × Vec2) :=
  let det := a1.1 * a2.2 - a1.2 * a2.1
  if |det| < eps then none
  else
    let factor := 2 * Real.pi / det
    some ((a2.2 * factor, -a2.1 * factor), (-a1.2 * factor, a1.1 * factor))

/-- Modelled from the spec: the `DegenerateBasis`-checked variant of
`reciprocal3D` (guard `|vol| < ε`), absent from the source. -/
noncomputable def reciprocal3Dspec (a1 a2 a3 : Vec3) : Option (Vec3 × Vec3 × Vec3) :=
  let a2xa3 := vcross a2 a3
  let vol := vdot3 a1 a2xa3
  if |vol| < eps then none
  else
    let factor := 2 * Real.pi / vol
    some (vscale3 a2xa3 factor, vscale3 (vcross a3 a1) factor,
      vscale3 (vcross a1 a2) factor)

/-- The ascending integer range `[-m, …, m]` traversed by the Miller-index
loops `for (let h = -maxN; h <= maxN; h++)`. -/
def intRange (m : ℕ) : List ℤ := (List.range (2 * m + 1)).map fun i : ℕ => (i : ℤ) - (m : ℤ)

/-- The enumeration order of lattice.js `generateReciprocalPoints2D` before
sorting: `h` outer, `k` inner, both ascending, skipping `(0,0)`, producing
`G = h·b1 + k·b2` componentwise. -/
def pointsList2D (b1 b2 : Vec2) (m : ℕ) : List Vec2 :=
  (intRange m).flatMap fun h =>
    (intRange m).flatMap fun k =>
      if h = 0 ∧ k = 0 then []
      else [((h : ℝ) * b1.1 + (k : ℝ) * b2.1, (h : ℝ) * b1.2 + (k : ℝ) * b2.2)]

/-- lattice.js `generateReciprocalPoints2D`: enumerate and then sort by
distance from the origin (`points.sort((a, b) => vlength(a) - vlength(b))`,
a stable ascending sort by `vlength`). -/
noncomputable def generateReciprocalPoints2D (b1 b2 : Vec2) (m : ℕ) : List Vec2 :=
  (pointsList2D b1 b2 m).mergeSort fun a b => decide (vlength a ≤ vlength b)

/-- The enumeration order of lattice.js `generateReciprocalPoints3D`. -/
def pointsList3D (b1 b2 b3 : Vec3) (m : ℕ) : List Vec3 :=
  (intRange m).flatMap fun h =>
    (intRange m).flatMap fun k =>
      (intRange m).flatMap fun l =>
        if h = 0 ∧ k = 0 ∧ l = 0 then []
        else [((h : ℝ) * b1.1 + (k : ℝ) * b2.1 + (l : ℝ) * b3.1,
               (h : ℝ) * b1.2.1 + (k : ℝ) * b2.2.1 + (l : ℝ) * b3.2.1,
               (h : ℝ) * b1.2.2 + (k : ℝ) * b2.2.2 + (l : ℝ) * b3.2.2)]

/-- lattice.js `generateReciprocalPoints3D`. -/
noncomputable def generateReciprocalPoints3D (b1 b2 b3 : Vec3) (m : ℕ) : List Vec3 :=
  (pointsList3D b1 b2 b3 m).mergeSort fun a b => decide (vlength3 a ≤ vlength3 b)

/-- The oversized bounding square of half-width `R = 100` that seeds the 2D
zone constructions in brillouin.js. -/
def initSquare : List Vec2 := [(-100, -100), (100, -100), (100, 100), (-100, 100)]

/-- The clipping loop of brillouin.js `computeFirstBZ2D`: clip by the Bragg
half-plane `G·k ≤ |G|²/2` of each reciprocal point in turn, stopping early
(`break`) as soon as the polygon degenerates below 3 vertices.  (The JS loop
also builds `bisectorPlane(G)` into an unused local; the clip itself uses
`normal = [G[0], G[1]]` and `d = G·G/2`, as here.) -/
noncomputable def clipLoopBZ : List Vec2 → List Vec2 → List Vec2
  | poly, [] => poly
  | poly, G :: rest =>
    let p2 := clipPolygonByPlane2D poly (G.1, G.2) (vdot G G / 2)
    if p2.length < 3 then p2 else clipLoopBZ p2 rest

/-- brillouin.js `computeFirstBZ2D`. -/
noncomputable def computeFirstBZ2D (reciprocalPoints : List Vec2) : List Vec2 :=
  sortPointsCCW (clipLoopBZ initSquare reciprocalPoints)

/-- A Bragg-plane record `{ normal, d, G }` as built by `computeNthBZ2D`. -/
structure BraggPlane2 where
  normal : Vec2
  d : ℝ
  G : Vec2

/-- A Bragg-plane record `{ normal, d, dist }` as built by
`computeAccumulatedBZ2D`. -/
structure DistPlane where
  normal : Vec2
  d : ℝ
  dist : ℝ

/-- The grouping loop of `computeAccumulatedBZ2D`: walk the distance-sorted
plane list comparing each entry's `dist` with its predecessor's
(`|planes[i].dist - planes[i-1].dist| < 1e-9` joins the current group,
otherwise a new group starts). -/
noncomputable def groupRun (prev : DistPlane) (cur : List DistPlane) :
    List DistPlane → List (List DistPlane)
  | [] => [cur]
  | p :: rest =>
    if |p.dist - prev.dist| < eps then groupRun p (cur ++ [p]) rest
    else cur :: groupRun p [p] rest

/-- Distance groups (`shells`) of a sorted plane list.  On an empty list the
JS code dereferences `planes[0]` (undefined) and throws before producing any
groups; the exceptional path is modelled by the empty group list. -/
noncomputable def planeGroups : List DistPlane → List (List DistPlane)
  | [] => []
  | p :: rest => groupRun p [p] rest

/-- The clipping loop of `computeAccumulatedBZ2D` over the flattened list of
the first `n` groups; `return []` on degeneration aborts the whole
function. -/
noncomputable def accLoop : List Vec2 → List DistPlane → List Vec2
  | poly, [] => poly
  | poly, p :: rest =>
    let p2 := clipPolygonByPlane2D poly p.normal p.d
    if p2.length < 3 then [] else accLoop p2 rest

/-- brillouin.js `computeAccumulatedBZ2D`: clip the oversized square by every
plane of the first `n` distance shells.  The JS early `return []` skips the
final `sortPointsCCW`, but `sortPointsCCW [] = []`, so composing it
unconditionally is exact. -/
noncomputable def computeAccumulatedBZ2D (reciprocalPoints : List Vec2) (n : ℕ) :
    List Vec2 :=
  let planes := reciprocalPoints.map fun G =>
    DistPlane.mk (G.1, G.2) (vdot G G / 2) (vlength G / 2)
  let sorted := planes.mergeSort fun a b => decide (a.dist ≤ b.dist)
  sortPointsCCW (accLoop initSquare (((planeGroups sorted).take n).flatten))

/-- The vertex-average `centroid` local of `computeZoneDifference2D`. -/
noncomputable def centroid (poly : List Vec2) : Vec2 :=
  ((poly.map Prod.fst).sum / poly.length, (poly.map Prod.snd).sum / poly.length)

/-- The `isInsidePolygon` local of `computeZoneDifference2D`: ray casting over
the edges `(poly[i], poly[j])` with `j` the predecessor index. -/
noncomputable def isInsidePolygon (pt : Vec2) (poly : List Vec2) : Bool :=
  (poly.zip (poly.rotate (poly.length - 1))).foldl
    (fun inside q =>
      let xi := q.1.1
      let yi := q.1.2
      let xj := q.2.1
      let yj := q.2.2
      if decide (pt.2 < yi) ≠ decide (pt.2 < yj) ∧
          pt.1 < (xj - xi) * (pt.2 - yi) / (yj - yi) + xi then
        !inside
      else inside)
    false

/-- The fragment-subdivision loop of `computeZoneDifference2D`: clip every
fragment by both half-planes of each Bragg plane, keeping the nondegenerate
halves; the cap test `fragments.length > 500` runs after a full pass and
`break`s further subdivision. -/
noncomputable def subdivideFrags : List (List Vec2) → List BraggPlane2 → List (List Vec2)
  | frags, [] => frags
  | frags, p :: rest =>
    let newFrags := frags.flatMap fun frag =>
      let pos := clipPolygonByPlane2D frag p.normal p.d
      let neg := clipPolygonByPlane2D frag (-p.normal.1, -p.normal.2) (-p.d)
      (if 3 ≤ pos.length then [pos] else []) ++ (if 3 ≤ neg.length then [neg] else [])
    if 500 < newFrags.length then newFrags else subdivideFrags newFrags rest

/-- brillouin.js `computeZoneDifference2D`: `[outerPolygon]` when the inner
polygon is degenerate, otherwise subdivide the outer polygon by all Bragg
planes and keep (CCW-sorted) the fragments whose centroid falls outside the
inner polygon.  The `n` argument is unused by the JS body and kept for
signature fidelity. -/
noncomputable def computeZoneDifference2D (outerPolygon innerPolygon : List Vec2)
    (planes : List BraggPlane2) (_n : ℕ) : List (List Vec2) :=
  if innerPolygon.length < 3 then [outerPolygon]
  else
    ((subdivideFrags [outerPolygon] planes).filter fun frag =>
      !isInsidePolygon (centroid frag) innerPolygon).map sortPointsCCW

/-- brillouin.js `computeNthBZ2D`.  The JS body additionally computes a
`getZoneNumber` closure and a list of pairwise plane-intersection vertices
that are never used for the returned value; that dead code is omitted. -/
noncomputable def computeNthBZ2D (reciprocalPoints : List Vec2) (n : ℕ) :
    List (List Vec2) :=
  if n = 1 then [computeFirstBZ2D reciprocalPoints]
  else
    let planes := reciprocalPoints.map fun G =>
      BraggPlane2.mk (G.1, G.2) (vdot G G / 2) G
    let accumulatedN := computeAccumulatedBZ2D reciprocalPoints n
    let accumulatedNm1 :=
      if 1 < n then computeAccumulatedBZ2D reciprocalPoints (n - 1) else []
    if accumulatedN = [] then []
    else computeZoneDifference2D accumulatedN accumulatedNm1 planes n

/-- The computational core of main.js `update2D`: look up the lattice type in
`LATTICE_2D` (unknown tags abort before any computation — JS logs and
returns), build the lattice with the default scale parameters, derive the
reciprocal basis and generate the reciprocal points with
`latticeRange = ceil(sqrt(maxZone)) + 5`. -/
noncomputable def update2DCore (ty : String) (maxZone : ℕ) :
    Option (Lattice2D × (Vec2 × Vec2) × List Vec2) :=
  match LATTICE_2D ty with
  | none => none
  | some latticeFn =>
    let lattice := latticeFn 1 1.5
    let bs := reciprocal2D lattice.a1 lattice.a2
    let latticeRange := ⌈Real.sqrt maxZone⌉₊ + 5
    some (lattice, bs, generateReciprocalPoints2D bs.1 bs.2 latticeRange)

/-- The reciprocal point `G = h·b1 + k·b2` of the square lattice with
`a = 1`, whose reciprocal basis is `b1 = (2π, 0)`, `b2 = (0, 2π)`; used to
analyse `computeFirstBZ2D` on that lattice. -/
noncomputable def Gsq (h k : ℤ) : Vec2 := (2 * Real.pi * h, 2 * Real.pi * k)

/-- Membership of the innermost reciprocal shell (norm at most `2π`), used
to locate the four nearest Bragg planes in the sorted point list of the
square lattice. -/
noncomputable def smallb (x : Vec2) : Bool := decide (vlength x ≤ 2 * Real.pi)

/-! ### General lemmas about the clipping primitive -/

lemma eps_pos : (0 : ℝ) < eps := by norm_num [eps]

lemma mem_of_mem_cyclePairs {l : List Vec2} {p : Vec2 × Vec2}
    (hp : p ∈ cyclePairs l) : p.1 ∈ l ∧ p.2 ∈ l := by
  obtain ⟨a, b⟩ := p
  have h := List.of_mem_zip hp
  exact ⟨h.1, List.mem_rotate.mp h.2⟩

lemma flatMap_singleton_map {α β : Type} (f : α → β) (l : List α) :
    (l.flatMap fun x => [f x]) = l.map f := by
  induction l with
  | nil => rfl
  | cons a t ih => simp [ih]

lemma cyclePairs_map_fst (l : List Vec2) : (cyclePairs l).map Prod.fst = l :=
  List.map_fst_zip _ _ (by simp [List.length_rotate])

/-- Expansion of the dot product along a lerp. -/
lemma vdot_vlerp (n a b : Vec2) (t : ℝ) :
    vdot n (vlerp a b t) = vdot n a + t * (vdot n b - vdot n a) := by
  simp only [vdot, vlerp]; ring

/-- The inserted crossing point lies exactly on the clipping boundary. -/
lemma vdot_vlerp_boundary {n a b : Vec2} {d : ℝ}
    (hne : vdot n a - d ≠ vdot n b - d) :
    vdot n (vlerp a b ((vdot n a - d) / ((vdot n a - d) - (vdot n b - d)))) = d := by
  rw [vdot_vlerp]
  have hAB : vdot n a - vdot n b ≠ 0 := fun hc => hne (by linarith [sub_eq_zero.mp hc])
  have key : (vdot n a - d) / ((vdot n a - d) - (vdot n b - d)) *
      (vdot n b - vdot n a) = -(vdot n a - d) := by
    rw [show (vdot n a - d) - (vdot n b - d) = vdot n a - vdot n b by ring]
    field_simp
    ring
  rw [key]
  ring

/-- If every vertex satisfies the half-plane within tolerance, the clip
returns the polygon unchanged. -/
lemma clip_of_all_kept {poly : List Vec2} {normal : Vec2} {d : ℝ}
    (hall : ∀ v ∈ poly, vdot normal v - d ≤ eps) :
    clipPolygonByPlane2D poly normal d = poly := by
  unfold clipPolygonByPlane2D
  rw [List.flatMap_congr (g := fun p => [p.1]) ?_]
  · rw [flatMap_singleton_map, cyclePairs_map_fst]
  · intro p hp
    obtain ⟨h1, h2⟩ := mem_of_mem_cyclePairs hp
    have hdc : vdot normal p.1 - d ≤ eps := hall _ h1
    have hdn : ¬ eps < vdot normal p.2 - d := not_lt.mpr (hall _ h2)
    simp [hdc, hdn]

/-- If every vertex violates the half-plane by more than the tolerance, the
clip returns the empty polygon. -/
lemma clip_of_all_dropped {poly : List Vec2} {normal : Vec2} {d : ℝ}
    (hall : ∀ v ∈ poly, eps < vdot normal v - d) :
    clipPolygonByPlane2D poly normal d = [] := by
  unfold clipPolygonByPlane2D
  rw [List.flatMap_congr (g := fun _ => []) ?_]
  · simp
  · intro p hp
    obtain ⟨h1, h2⟩ := mem_of_mem_cyclePairs hp
    have hdc : ¬ vdot normal p.1 - d ≤ eps := not_le.mpr (hall _ h1)
    have hdn : ¬ vdot normal p.2 - d ≤ eps := not_le.mpr (hall _ h2)
    simp [hdc, hdn]

/-- Every vertex of a clipped polygon satisfies the clipping half-plane
within tolerance (kept vertices by the branch test, inserted crossing points
exactly on the boundary). -/
lemma mem_clip_le {poly : List Vec2} {normal : Vec2} {d : ℝ} {v : Vec2}
    (hv : v ∈ clipPolygonByPlane2D poly normal d) : vdot normal v ≤ d + eps := by
  unfold clipPolygonByPlane2D at hv
  rw [List.mem_flatMap] at hv
  obtain ⟨p, -, hv⟩ := hv
  simp only at hv
  by_cases hdc : vdot normal p.1 - d ≤ eps
  · rw [if_pos hdc] at hv
    rcases List.mem_cons.mp hv with rfl | hv
    · linarith
    · by_cases hdn : eps < vdot normal p.2 - d
      · rw [if_pos hdn] at hv
        rcases List.mem_singleton.mp hv with rfl
        have hne : vdot normal p.1 - d ≠ vdot normal p.2 - d := by linarith
        rw [vdot_vlerp_boundary hne]
        linarith [eps_pos]
      · rw [if_neg hdn] at hv
        exact absurd hv (List.not_mem_nil v)
  · rw [if_neg hdc] at hv
    by_cases hdn : vdot normal p.2 - d ≤ eps
    · rw [if_pos hdn] at hv
      rcases List.mem_singleton.mp hv with rfl
      have hne : vdot normal p.1 - d ≠ vdot normal p.2 - d := by
        push_neg at hdc; linarith
      rw [vdot_vlerp_boundary hne]
      linarith [eps_pos]
    · rw [if_neg hdn] at hv
      exact absurd hv (List.not_mem_nil v)

/-- A vertex satisfying the half-plane within tolerance is retained by the
clip. -/
lemma mem_clip_of_kept {poly : List Vec2} {normal : Vec2} {d : ℝ} {v : Vec2}
    (hv : v ∈ poly) (hd : vdot normal v - d ≤ eps) :
    v ∈ clipPolygonByPlane2D poly normal d := by
  unfold clipPolygonByPlane2D
  rw [List.mem_flatMap]
  obtain ⟨i, hi, rfl⟩ := List.mem_iff_get.mp hv
  refine ⟨(poly.get i, (poly.rotate 1).get ⟨i, by simp [List.length_rotate]⟩), ?_, ?_⟩
  · exact List.mem_iff_get.mpr ⟨⟨i, by simp [cyclePairs, List.length_rotate]⟩, by
      simp [cyclePairs, List.getElem_zip, List.get_eq_getElem]⟩
  · simp only [if_pos hd]
    exact List.mem_cons_self _ _

/-! ### C9: unknown lattice-type tags fail before any computation -/

/-- **C9.** A lattice-type tag outside the supported catalogues has no entry
in `LATTICE_2D`/`LATTICE_3D` (lookup yields nothing), and the `update2D`
pipeline aborts before computing any basis, reciprocal vectors or points. -/
theorem C9_unknown_lattice_type_fails (ty : String) (maxZone : ℕ)
    (h2 : ty ≠ "square" ∧ ty ≠ "rectangular" ∧ ty ≠ "hexagonal")
    (h3 : ty ≠ "cubic" ∧ ty ≠ "fcc" ∧ ty ≠ "bcc") :
    LATTICE_2D ty = none ∧ LATTICE_3D ty = none ∧ update2DCore ty maxZone = none := by
  have l2 : LATTICE_2D ty = none := by
    simp [LATTICE_2D, h2.1, h2.2.1, h2.2.2]
  refine ⟨l2, ?_, ?_⟩
  · simp [LATTICE_3D, h3.1, h3.2.1, h3.2.2]
  · simp [update2DCore, l2]

/-- Witness for C9 at the concrete unknown tag `"triclinic"`. -/
theorem C9_witness :
    LATTICE_2D "triclinic" = none ∧ LATTICE_3D "triclinic" = none ∧
      update2DCore "triclinic" 1 = none :=
  C9_unknown_lattice_type_fails "triclinic" 1 (by decide) (by decide)

/-! ### C2: duality and round-trip of `reciprocal2D` -/

/-- **C2.** For every non-degenerate 2D basis, the reciprocal basis returned
by `reciprocal2D` satisfies `bᵢ·aⱼ = 2π·δᵢⱼ` exactly, and applying
`reciprocal2D` to `(b1, b2)` returns `(a1, a2)` exactly (in particular
within the claimed `1e-9` tolerance). -/
theorem C2_reciprocal2D_duality_roundtrip (a1 a2 : Vec2)
    (hdet : a1.1 * a2.2 - a1.2 * a2.1 ≠ 0) :
    vdot (reciprocal2D a1 a2).1 a1 = 2 * Real.pi ∧
    vdot (reciprocal2D a1 a2).1 a2 = 0 ∧
    vdot (reciprocal2D a1 a2).2 a1 = 0 ∧
    vdot (reciprocal2D a1 a2).2 a2 = 2 * Real.pi ∧
    reciprocal2D (reciprocal2D a1 a2).1 (reciprocal2D a1 a2).2 = (a1, a2) := by
  obtain ⟨x1, y1⟩ := a1
  obtain ⟨x2, y2⟩ := a2
  simp only [reciprocal2D, vdot] at hdet ⊢
  have hpi : Real.pi ≠ 0 := Real.pi_ne_zero
  refine ⟨by field_simp; ring, by field_simp; ring, by field_simp; ring,
    by field_simp; ring, ?_⟩
  simp only [Prod.mk.injEq]
  set D := x1 * y2 - y1 * x2 with hD
  set f := 2 * Real.pi / D with hf
  have hf0 : f ≠ 0 := by
    rw [hf]
    exact div_ne_zero (by positivity) hdet
  have hfD : f * D = 2 * Real.pi := by
    rw [hf]
    field_simp
  have hdet2 : y2 * f * (x1 * f) - -x2 * f * (-y1 * f) = f * f * D := by ring
  rw [hdet2]
  have hrepl : 2 * Real.pi / (f * f * D) = 1 / f := by
    rw [← hfD]
    field_simp
    ring
  rw [hrepl]
  refine ⟨⟨?_, ?_⟩, ?_, ?_⟩ <;> field_simp

/-- Witness for C2 at the square lattice with `a = 1`. -/
theorem C2_witness :
    ((1 : ℝ), (0 : ℝ)).1 * ((0 : ℝ), (1 : ℝ)).2 - (1, 0).2 * (0, 1).1 ≠ 0 ∧
      vdot (reciprocal2D ((1 : ℝ), (0 : ℝ)) (0, 1)).1 (1, 0) = 2 * Real.pi :=
  ⟨by norm_num,
   (C2_reciprocal2D_duality_roundtrip (1, 0) (0, 1) (by norm_num)).1⟩

/-! ### C4: `DegenerateBasis` guard (absent from the source) -/

/-- **C4 counterexample.** At the degenerate basis `a1 = a2 = (1,0)`
(`det = 0`, so `|det| < ε`), the spec-modelled guarded function fails, but
the source's `reciprocal2D` is total and returns a value: the claim that the
code fails with `DegenerateBasis` is false.  The returned value even violates
duality: `b1·a1 = 0 ≠ 2π`. -/
theorem C4_counterexample :
    some (reciprocal2D (1, 0) (1, 0)) ≠ reciprocal2Dspec (1, 0) (1, 0) ∧
      reciprocal2Dspec (1, 0) (1, 0) = none ∧
      vdot (reciprocal2D (1, 0) (1, 0)).1 (1, 0) ≠ 2 * Real.pi := by
  have hspec : reciprocal2Dspec (1, 0) (1, 0) = none := by
    simp [reciprocal2Dspec]
    norm_num [eps]
  refine ⟨by simp [hspec], hspec, ?_⟩
  simp only [reciprocal2D, vdot]
  norm_num
  exact Real.pi_ne_zero

/-- **C4 amended.** The source performs no degeneracy check at all: both
`reciprocal2D` and `reciprocal3D` are total and return the dual-basis
formulas with factor `2π/det` (resp. `2π/vol`) unconditionally; on inputs
with `|det| ≥ ε` (resp. `|vol| ≥ ε`) they agree with the spec-modelled
guarded versions, and degenerate inputs yield meaningless values rather than
a `DegenerateBasis` failure. -/
theorem C4_amended (a1 a2 : Vec2) (c1 c2 c3 : Vec3)
    (h2 : eps ≤ |a1.1 * a2.2 - a1.2 * a2.1|)
    (h3 : eps ≤ |vdot3 c1 (vcross c2 c3)|) :
    reciprocal2Dspec a1 a2 = some (reciprocal2D a1 a2) ∧
      reciprocal3Dspec c1 c2 c3 = some (reciprocal3D c1 c2 c3) := by
  constructor
  · simp only [reciprocal2Dspec, reciprocal2D]
    rw [if_neg (not_lt.mpr h2)]
  · simp only [reciprocal3Dspec, reciprocal3D]
    rw [if_neg (not_lt.mpr h3)]

/-- Witness for C4's amended claim at the square and simple-cubic bases. -/
theorem C4_amended_witness :
    reciprocal2Dspec (1, 0) (0, 1) = some (reciprocal2D (1, 0) (0, 1)) ∧
      reciprocal3Dspec (1, 0, 0) (0, 1, 0) (0, 0, 1) =
        some (reciprocal3D (1, 0, 0) (0, 1, 0) (0, 0, 1)) :=
  C4_amended (1, 0) (0, 1) (1, 0, 0) (0, 1, 0) (0, 0, 1)
    (by norm_num [eps]) (by norm_num [vdot3, vcross, eps])

/-! ### C10: half-plane membership is an invariant of clipping -/

/-- **C10.** Every vertex of `clipPolygonByPlane2D polygon normal d`
satisfies `normal·x ≤ d + 1e-9`: kept vertices by the branch test, inserted
crossing points exactly on the boundary `normal·x = d`. -/
theorem C10_clip_membership_invariant (polygon : List Vec2) (normal : Vec2) (d : ℝ)
    (v : Vec2) (hv : v ∈ clipPolygonByPlane2D polygon normal d) :
    vdot normal v ≤ d + eps :=
  mem_clip_le hv

/-- Witness for C10 on a concrete triangle. -/
theorem C10_witness :
    ((0 : ℝ), (0 : ℝ)) ∈ clipPolygonByPlane2D [(0, 0), (1, 0), (0, 1)] (1, 0) 1 ∧
      vdot ((1 : ℝ), (0 : ℝ)) (0, 0) ≤ 1 + eps := by
  have hmem : ((0 : ℝ), (0 : ℝ)) ∈ clipPolygonByPlane2D [(0, 0), (1, 0), (0, 1)] (1, 0) 1 := by
    have : clipPolygonByPlane2D [((0 : ℝ), (0 : ℝ)), (1, 0), (0, 1)] (1, 0) 1 =
        [(0, 0), (1, 0), (0, 1)] :=
      clip_of_all_kept (by
        intro v hv
        have he : (0 : ℝ) < eps := eps_pos
        fin_cases hv <;> simp [vdot] <;> linarith)
    rw [this]
    simp
  exact ⟨hmem, C10_clip_membership_invariant _ _ _ _ hmem⟩

/-! ### C5: containing / disjoint half-planes -/

/-- **C5 counterexample.**  A convex polygon lying entirely strictly outside
the half-plane `x ≤ 0` (every vertex has `normal·x > d`), but within the
`1e-9` tolerance band: the clip keeps every vertex, so the result is the
whole polygon rather than the empty list.  This refutes the claim's second
part as stated (`strictly outside ⇒ empty result`). -/
theorem C5_counterexample :
    (∀ v ∈ [((1 : ℝ) / 10000000000, (0 : ℝ)), (1 / 10000000000, 1),
        (1 / 20000000000, 1 / 2)], 0 < vdot (1, 0) v) ∧
      clipPolygonByPlane2D [((1 : ℝ) / 10000000000, (0 : ℝ)), (1 / 10000000000, 1),
        (1 / 20000000000, 1 / 2)] (1, 0) 0 ≠ [] := by
  constructor
  · intro v hv
    fin_cases hv <;> norm_num [vdot]
  · rw [clip_of_all_kept (by intro v hv; fin_cases hv <;> norm_num [vdot, eps])]
    simp

/-- **C5 amended.**  With both parts read at the algorithm's tolerance: a
polygon whose vertices all satisfy the half-plane within `ε` is returned
unchanged (vertex-for-vertex, same starting index), and a polygon whose
vertices all violate it by more than `ε` clips to the empty list. -/
theorem C5_amended (polygon : List Vec2) (normal : Vec2) (d : ℝ) :
    ((∀ v ∈ polygon, vdot normal v - d ≤ eps) →
        clipPolygonByPlane2D polygon normal d = polygon) ∧
      ((∀ v ∈ polygon, eps < vdot normal v - d) →
        clipPolygonByPlane2D polygon normal d = []) :=
  ⟨clip_of_all_kept, clip_of_all_dropped⟩

/-- Witness for C5's amended claim on a concrete triangle and half-planes. -/
theorem C5_witness :
    clipPolygonByPlane2D [((0 : ℝ), (0 : ℝ)), (1, 0), (0, 1)] (1, 0) 2 =
        [(0, 0), (1, 0), (0, 1)] ∧
      clipPolygonByPlane2D [((0 : ℝ), (0 : ℝ)), (1, 0), (0, 1)] (1, 0) (-5) = [] :=
  ⟨(C5_amended _ _ _).1 (by intro v hv; fin_cases hv <;> norm_num [vdot, eps]),
   (C5_amended _ _ _).2 (by intro v hv; fin_cases hv <;> norm_num [vdot, eps])⟩

/-! ### C6: nth zone with degenerate accumulated(n−1) -/

/-- **C6.**  For `n > 1` the construction computes `accumulated(n)` and
`accumulated(n−1)` and feeds them to the zone difference; whenever the inner
(accumulated `n−1`) polygon is empty or degenerate (fewer than 3 vertices),
the difference is exactly the single fragment given by the outer
(accumulated `n`) polygon. -/
theorem C6_nth_zone_degenerate_inner (outer inner : List Vec2)
    (planes : List BraggPlane2) (n : ℕ) (pts : List Vec2) (m : ℕ)
    (hinner : inner.length < 3) (hm : 1 < m) :
    computeZoneDifference2D outer inner planes n = [outer] ∧
      computeNthBZ2D pts m =
        (if computeAccumulatedBZ2D pts m = [] then []
         else computeZoneDifference2D (computeAccumulatedBZ2D pts m)
           (computeAccumulatedBZ2D pts (m - 1))
           (pts.map fun G => BraggPlane2.mk (G.1, G.2) (vdot G G / 2) G) m) := by
  constructor
  · unfold computeZoneDifference2D
    rw [if_pos hinner]
  · unfold computeNthBZ2D
    rw [if_neg (by omega : ¬ m = 1), if_pos hm]

/-- Witness for C6 at a concrete degenerate inner polygon and `n = 2`. -/
theorem C6_witness :
    computeZoneDifference2D [((0 : ℝ), (0 : ℝ)), (1, 0), (0, 1)] [] [] 2 =
        [[(0, 0), (1, 0), (0, 1)]] ∧
      computeNthBZ2D [] 2 =
        (if computeAccumulatedBZ2D [] 2 = [] then []
         else computeZoneDifference2D (computeAccumulatedBZ2D [] 2)
           (computeAccumulatedBZ2D [] 1)
           (([] : List Vec2).map fun G => BraggPlane2.mk (G.1, G.2) (vdot G G / 2) G)
           2) :=
  C6_nth_zone_degenerate_inner _ [] [] 2 [] 2 (by norm_num) (by norm_num)

/-! ### C7: the 500-fragment cap -/

lemma flatMap_replicate_two {α : Type} (a : α) (f : α → List α) (hf : f a = [a, a]) :
    ∀ j : ℕ, (List.replicate j a).flatMap f = List.replicate (2 * j) a := by
  intro j
  induction j with
  | zero => simp
  | succ j ih =>
    rw [List.replicate_succ, List.flatMap_cons, ih, hf,
      show 2 * (j + 1) = (2 * j + 1) + 1 by ring,
      List.replicate_succ, List.replicate_succ]
    rfl

lemma filter_replicate_true {α : Type} (p : α → Bool) (a : α) (hp : p a = true) :
    ∀ n : ℕ, (List.replicate n a).filter p = List.replicate n a := by
  intro n
  induction n with
  | zero => simp
  | succ n ih => rw [List.replicate_succ, List.filter_cons_of_pos hp, ih]

/-- One doubling step of the subdivision loop when both half-plane clips keep
a fragment unchanged. -/
lemma subdivideFrags_step_double {a : List Vec2} {p : BraggPlane2}
    (hpos : clipPolygonByPlane2D a p.normal p.d = a)
    (hneg : clipPolygonByPlane2D a (-p.normal.1, -p.normal.2) (-p.d) = a)
    (ha : 3 ≤ a.length) (rest : List BraggPlane2) (j : ℕ) :
    subdivideFrags (List.replicate j a) (p :: rest) =
      if 500 < 2 * j then List.replicate (2 * j) a
      else subdivideFrags (List.replicate (2 * j) a) rest := by
  have hbody : (fun frag =>
      (if 3 ≤ (clipPolygonByPlane2D frag p.normal p.d).length
        then [clipPolygonByPlane2D frag p.normal p.d] else []) ++
      (if 3 ≤ (clipPolygonByPlane2D frag (-p.normal.1, -p.normal.2) (-p.d)).length
        then [clipPolygonByPlane2D frag (-p.normal.1, -p.normal.2) (-p.d)] else [])) a
      = [a, a] := by
    simp only [hpos, hneg, if_pos ha]
    rfl
  show (if 500 < (List.flatMap _ _).length then _ else subdivideFrags _ rest) = _
  rw [flatMap_replicate_two a _ hbody j, List.length_replicate]

lemma length_flatMap_le_two {α β : Type} (f : α → List β) (l : List α)
    (hf : ∀ x ∈ l, (f x).length ≤ 2) : (l.flatMap f).length ≤ 2 * l.length := by
  induction l with
  | nil => simp
  | cons x t ih =>
    rw [List.flatMap_cons, List.length_append, List.length_cons]
    have h1 := hf x (List.mem_cons_self _ _)
    have h2 := ih fun y hy => hf y (List.mem_cons_of_mem _ hy)
    omega

/-- The subdivision loop at most doubles a fragment list that is within the
cap, and stops as soon as the cap is exceeded: the result never exceeds
`1000` fragments. -/
lemma subdivideFrags_length_le :
    ∀ (planes : List BraggPlane2) (frags : List (List Vec2)),
      frags.length ≤ 500 → (subdivideFrags frags planes).length ≤ 1000 := by
  intro planes
  induction planes with
  | nil =>
    intro frags h
    unfold subdivideFrags
    omega
  | cons p rest ih =>
    intro frags h
    unfold subdivideFrags
    have hnew : (frags.flatMap fun frag =>
        let pos := clipPolygonByPlane2D frag p.normal p.d
        let neg := clipPolygonByPlane2D frag (-p.normal.1, -p.normal.2) (-p.d)
        (if 3 ≤ pos.length then [pos] else []) ++
          (if 3 ≤ neg.length then [neg] else [])).length ≤ 2 * frags.length := by
      apply length_flatMap_le_two
      intro x _
      simp only []
      split_ifs <;> simp
    show (if 500 < (List.flatMap _ _).length then _ else subdivideFrags _ rest).length ≤ _
    split_ifs with hcap
    · omega
    · exact ih _ (by omega)

/-- **C7 counterexample.**  A degenerate sliver polygon lying inside the
tolerance band of a Bragg plane is kept whole by both half-plane clips, so
each pass doubles the fragment list: after nine passes over identical planes
the subdivision holds `512 > 500` fragments, and (with a far-away inner
polygon retaining every fragment) `computeZoneDifference2D` returns all
`512`.  This refutes the claim that subdivision never produces more than
`500` fragments. -/
theorem C7_counterexample :
    500 < (computeZoneDifference2D
      [((-1 : ℝ) / 10000000000, (0 : ℝ)), (1 / 10000000000, 0),
        (1 / 10000000000, 1), (-1 / 10000000000, 1)]
      [((1000 : ℝ), (1000 : ℝ)), (1001, 1000), (1000, 1001)]
      (List.replicate 10 (BraggPlane2.mk (1, 0) 0 (1, 0))) 2).length := by
  set a : List Vec2 := [((-1 : ℝ) / 10000000000, (0 : ℝ)), (1 / 10000000000, 0),
    (1 / 10000000000, 1), (-1 / 10000000000, 1)] with ha
  set inner : List Vec2 := [((1000 : ℝ), (1000 : ℝ)), (1001, 1000), (1000, 1001)]
    with hinner
  set p : BraggPlane2 := BraggPlane2.mk (1, 0) 0 (1, 0) with hp
  have hpos : clipPolygonByPlane2D a p.normal p.d = a :=
    clip_of_all_kept (by intro v hv; rw [ha] at hv; fin_cases hv <;> norm_num [vdot, eps, hp])
  have hneg : clipPolygonByPlane2D a (-p.normal.1, -p.normal.2) (-p.d) = a :=
    clip_of_all_kept (by intro v hv; rw [ha] at hv; fin_cases hv <;> norm_num [vdot, eps, hp])
  have halen : 3 ≤ a.length := by rw [ha]; norm_num
  have hstep := subdivideFrags_step_double hpos hneg halen
  have hsub : subdivideFrags [a] (List.replicate 10 p) = List.replicate 512 a := by
    rw [show [a] = List.replicate 1 a by simp,
      show List.replicate 10 p = p :: List.replicate 9 p from rfl,
      hstep _ 1, if_neg (by norm_num),
      show List.replicate 9 p = p :: List.replicate 8 p from rfl,
      hstep _ 2, if_neg (by norm_num),
      show List.replicate 8 p = p :: List.replicate 7 p from rfl,
      hstep _ 4, if_neg (by norm_num),
      show List.replicate 7 p = p :: List.replicate 6 p from rfl,
      hstep _ 8, if_neg (by norm_num),
      show List.replicate 6 p = p :: List.replicate 5 p from rfl,
      hstep _ 16, if_neg (by norm_num),
      show List.replicate 5 p = p :: List.replicate 4 p from rfl,
      hstep _ 32, if_neg (by norm_num),
      show List.replicate 4 p = p :: List.replicate 3 p from rfl,
      hstep _ 64, if_neg (by norm_num),
      show List.replicate 3 p = p :: List.replicate 2 p from rfl,
      hstep _ 128, if_neg (by norm_num),
      show List.replicate 2 p = p :: List.replicate 1 p from rfl,
      hstep _ 256, if_pos (by norm_num)]
  have hcent : centroid a = (0, 1 / 2) := by
    rw [ha]
    norm_num [centroid]
  have hout : (fun frag => !isInsidePolygon (centroid frag) inner) a = true := by
    simp only []
    rw [hcent, hinner]
    norm_num [isInsidePolygon, List.rotate]
  unfold computeZoneDifference2D
  rw [if_neg (show ¬ inner.length < 3 by rw [hinner]; norm_num), hsub,
    filter_replicate_true (fun frag => !isInsidePolygon (centroid frag) inner) a hout 512,
    List.length_map, List.length_replicate]
  norm_num

/-- **C7 amended.**  The cap test runs only after a full subdivision pass
(`if (fragments.length > 500) break`), so the fragment count can exceed 500
— up to at most double, since a ≤ 500 list at most doubles in one pass —
after which subdivision stops and the (incomplete but non-failing) fragment
set is classified and returned: the returned nth-zone fragment list never
exceeds 1000 entries. -/
theorem C7_amended (outerPolygon innerPolygon : List Vec2)
    (planes : List BraggPlane2) (n : ℕ) :
    (computeZoneDifference2D outerPolygon innerPolygon planes n).length ≤ 1000 := by
  unfold computeZoneDifference2D
  split_ifs with h
  · norm_num
  · rw [List.length_map]
    calc (List.filter _ _).length ≤ (subdivideFrags [outerPolygon] planes).length :=
          List.length_filter_le _ _
      _ ≤ 1000 := subdivideFrags_length_le planes [outerPolygon] (by norm_num)

/-! ### C8: order-dependence of successive clips -/

/-- **C8 counterexample.**  Clipping the triangle below by the half-planes
`x ≤ 1` and `y ≤ 1` in the two orders yields vertex lists that differ by
more than the tolerance: the order `y`-then-`x` produces the vertex
`(-1, 1)`, which is farther than `ε` from every vertex produced by the order
`x`-then-`y`.  The results are therefore not equal as vertex sets even up to
cyclic order and `ε`-tolerance, refuting order-independence of the
tolerance-based clips. -/
theorem C8_counterexample :
    ((-1 : ℝ), (1 : ℝ)) ∈ clipPolygonByPlane2D
        (clipPolygonByPlane2D [((-2 : ℝ), 1 - eps / 4), (-2, 0), (4, 1 + 5 * eps / 4)]
          (0, 1) 1) (1, 0) 1 ∧
      ∀ x ∈ clipPolygonByPlane2D
        (clipPolygonByPlane2D [((-2 : ℝ), 1 - eps / 4), (-2, 0), (4, 1 + 5 * eps / 4)]
          (1, 0) 1) (0, 1) 1, eps < vdist x (-1, 1) := by
  have hBA : clipPolygonByPlane2D
      (clipPolygonByPlane2D [((-2 : ℝ), 1 - eps / 4), (-2, 0), (4, 1 + 5 * eps / 4)]
        (0, 1) 1) (1, 0) 1 =
      [(-2, 1 - eps / 4), (-2, 0), (1, 1 / 2 + 5 * eps / 8), (1, 1), (-1, 1)] := by
    norm_num [clipPolygonByPlane2D, cyclePairs, vdot, vlerp, eps, List.rotate]
  have hAB : clipPolygonByPlane2D
      (clipPolygonByPlane2D [((-2 : ℝ), 1 - eps / 4), (-2, 0), (4, 1 + 5 * eps / 4)]
        (1, 0) 1) (0, 1) 1 =
      [(-2, 1 - eps / 4), (-2, 0), (1, 1 / 2 + 5 * eps / 8), (1, 1 + eps / 2)] := by
    norm_num [clipPolygonByPlane2D, cyclePairs, vdot, vlerp, eps, List.rotate]
  constructor
  · rw [hBA]
    simp
  · rw [hAB]
    intro x hx
    fin_cases hx <;>
      · simp only [vdist, vlength, vsub, vdot]
        refine lt_of_lt_of_le (show eps < 1 by norm_num [eps]) ?_
        apply Real.le_sqrt_of_sq_le
        norm_num [eps]

/-- **C8 amended.**  Order-independence fails at tolerance scale (see the
counterexample), but holds for retained original vertices: every vertex of
the input polygon satisfying both half-planes within `ε` appears in the
result of clipping in either order. -/
theorem C8_amended (polygon : List Vec2) (nA : Vec2) (dA : ℝ) (nB : Vec2) (dB : ℝ)
    (v : Vec2) (hv : v ∈ polygon)
    (hA : vdot nA v - dA ≤ eps) (hB : vdot nB v - dB ≤ eps) :
    v ∈ clipPolygonByPlane2D (clipPolygonByPlane2D polygon nA dA) nB dB ∧
      v ∈ clipPolygonByPlane2D (clipPolygonByPlane2D polygon nB dB) nA dA :=
  ⟨mem_clip_of_kept (mem_clip_of_kept hv hA) hB,
   mem_clip_of_kept (mem_clip_of_kept hv hB) hA⟩

/-- Witness for C8's amended claim on a concrete square and two planes. -/
theorem C8_witness :
    ((0 : ℝ), (0 : ℝ)) ∈ clipPolygonByPlane2D
        (clipPolygonByPlane2D [((0 : ℝ), (0 : ℝ)), (2, 0), (2, 2), (0, 2)] (1, 0) 1)
        (0, 1) 1 ∧
      ((0 : ℝ), (0 : ℝ)) ∈ clipPolygonByPlane2D
        (clipPolygonByPlane2D [((0 : ℝ), (0 : ℝ)), (2, 0), (2, 2), (0, 2)] (0, 1) 1)
        (1, 0) 1 :=
  C8_amended _ _ _ _ _ _ (by simp) (by norm_num [vdot, eps]) (by norm_num [vdot, eps])

/-! ### C3: reciprocal-point enumeration — counts, ordering, duplicates -/

lemma sum_map_le {ι : Type} (l : List ι) (g : ι → ℕ) (C : ℕ)
    (hg : ∀ x ∈ l, g x ≤ C) : (l.map g).sum ≤ C * l.length := by
  induction l with
  | nil => simp
  | cons a t ih =>
    have h1 := hg a (List.mem_cons_self _ _)
    have h2 := ih fun x hx => hg x (List.mem_cons_of_mem _ hx)
    simp only [List.map_cons, List.sum_cons, List.length_cons]
    calc g a + (t.map g).sum ≤ C + C * t.length := by omega
      _ = C * (t.length + 1) := by ring

lemma length_flatMap_sub {ι β : Type} (l : List ι) (f : ι → List β) (g : ι → ℕ) (C : ℕ)
    (hf : ∀ x ∈ l, (f x).length = C - g x) (hg : ∀ x ∈ l, g x ≤ C) :
    (l.flatMap f).length = C * l.length - (l.map g).sum := by
  induction l with
  | nil => simp
  | cons a t ih =>
    have h1 := hf a (List.mem_cons_self _ _)
    have h2 := hg a (List.mem_cons_self _ _)
    have h3 := ih (fun x hx => hf x (List.mem_cons_of_mem _ hx))
      (fun x hx => hg x (List.mem_cons_of_mem _ hx))
    have h4 := sum_map_le t g C fun x hx => hg x (List.mem_cons_of_mem _ hx)
    simp only [List.flatMap_cons, List.length_append, List.map_cons, List.sum_cons,
      List.length_cons, h1, h3]
    have : C * (t.length + 1) = C * t.length + C := by ring
    omega

lemma sum_map_ite_zero (l : List ℤ) :
    (l.map fun k => if k = 0 then 1 else 0).sum = l.count 0 := by
  induction l with
  | nil => simp
  | cons a t ih =>
    simp only [List.map_cons, List.sum_cons, List.count_cons, ih, beq_iff_eq]
    split_ifs <;> omega

lemma intRange_injective (m : ℕ) :
    Function.Injective fun i : ℕ => (i : ℤ) - (m : ℤ) := by
  intro a b hab
  simp only [sub_left_inj, Int.natCast_inj] at hab
  exact hab

lemma length_intRange (m : ℕ) : (intRange m).length = 2 * m + 1 := by
  rw [intRange, List.length_map, List.length_range]

lemma count_zero_intRange (m : ℕ) : (intRange m).count 0 = 1 := by
  have h0 : (0 : ℤ) = (fun i : ℕ => (i : ℤ) - (m : ℤ)) m := by simp
  rw [intRange, h0, List.count_map_of_injective _ _ (intRange_injective m)]
  exact List.count_eq_one_of_mem (List.nodup_range _) (List.mem_range.mpr (by omega))

lemma nodup_intRange (m : ℕ) : (intRange m).Nodup :=
  (List.nodup_range _).map (intRange_injective m)

lemma length_row2D (b1 b2 : Vec2) (m : ℕ) (h : ℤ) :
    ((intRange m).flatMap fun k => if h = 0 ∧ k = 0 then ([] : List Vec2)
      else [((h : ℝ) * b1.1 + (k : ℝ) * b2.1, (h : ℝ) * b1.2 + (k : ℝ) * b2.2)]).length
    = (2 * m + 1) - (if h = 0 then 1 else 0) := by
  rw [length_flatMap_sub _ _ (fun k => if h = 0 ∧ k = 0 then 1 else 0) 1
    (fun k _ => by simp only []; split_ifs <;> simp)
    (fun k _ => by simp only []; split_ifs <;> omega)]
  rw [length_intRange, one_mul]
  congr 1
  by_cases hh : h = 0
  · simp only [hh, true_and]
    rw [sum_map_ite_zero, count_zero_intRange]
    simp
  · simp [hh]

lemma length_pointsList2D (b1 b2 : Vec2) (m : ℕ) :
    (pointsList2D b1 b2 m).length = (2 * m + 1) * (2 * m + 1) - 1 := by
  unfold pointsList2D
  rw [length_flatMap_sub _ _ (fun h => if h = 0 then 1 else 0) (2 * m + 1)
    (fun h _ => length_row2D b1 b2 m h)
    (fun h _ => by simp only []; split_ifs <;> omega)]
  rw [length_intRange, sum_map_ite_zero, count_zero_intRange]

lemma length_cell3D (b1 b2 b3 : Vec3) (m : ℕ) (h k : ℤ) :
    ((intRange m).flatMap fun l => if h = 0 ∧ k = 0 ∧ l = 0 then ([] : List Vec3)
      else [((h : ℝ) * b1.1 + (k : ℝ) * b2.1 + (l : ℝ) * b3.1,
             (h : ℝ) * b1.2.1 + (k : ℝ) * b2.2.1 + (l : ℝ) * b3.2.1,
             (h : ℝ) * b1.2.2 + (k : ℝ) * b2.2.2 + (l : ℝ) * b3.2.2)]).length
    = (2 * m + 1) - (if h = 0 ∧ k = 0 then 1 else 0) := by
  rw [length_flatMap_sub _ _ (fun l => if h = 0 ∧ k = 0 ∧ l = 0 then 1 else 0) 1
    (fun l _ => by simp only []; split_ifs <;> simp)
    (fun l _ => by simp only []; split_ifs <;> omega)]
  rw [length_intRange, one_mul]
  congr 1
  by_cases hh : h = 0 ∧ k = 0
  · simp only [hh.1, hh.2, true_and]
    rw [sum_map_ite_zero, count_zero_intRange]
    simp
  · have : ∀ l : ℤ, ¬ (h = 0 ∧ k = 0 ∧ l = 0) := fun l hc => hh ⟨hc.1, hc.2.1⟩
    simp [this, hh]

lemma length_mid3D (b1 b2 b3 : Vec3) (m : ℕ) (h : ℤ) :
    ((intRange m).flatMap fun k => (intRange m).flatMap fun l =>
      if h = 0 ∧ k = 0 ∧ l = 0 then ([] : List Vec3)
      else [((h : ℝ) * b1.1 + (k : ℝ) * b2.1 + (l : ℝ) * b3.1,
             (h : ℝ) * b1.2.1 + (k : ℝ) * b2.2.1 + (l : ℝ) * b3.2.1,
             (h : ℝ) * b1.2.2 + (k : ℝ) * b2.2.2 + (l : ℝ) * b3.2.2)]).length
    = (2 * m + 1) * (2 * m + 1) - (if h = 0 then 1 else 0) := by
  rw [length_flatMap_sub _ _ (fun k => if h = 0 ∧ k = 0 then 1 else 0) (2 * m + 1)
    (fun k _ => length_cell3D b1 b2 b3 m h k)
    (fun k _ => by simp only []; split_ifs <;> omega)]
  rw [length_intRange]
  congr 1
  by_cases hh : h = 0
  · simp only [hh, true_and]
    rw [sum_map_ite_zero, count_zero_intRange]
    simp
  · simp [hh]

lemma length_pointsList3D (b1 b2 b3 : Vec3) (m : ℕ) :
    (pointsList3D b1 b2 b3 m).length = (2 * m + 1) * ((2 * m + 1) * (2 * m + 1)) - 1 := by
  unfold pointsList3D
  rw [length_flatMap_sub _ _ (fun h => if h = 0 then 1 else 0) ((2 * m + 1) * (2 * m + 1))
    (fun h _ => length_mid3D b1 b2 b3 m h)
    (fun h _ => by simp only []; split_ifs <;> nlinarith)]
  rw [length_intRange, sum_map_ite_zero, count_zero_intRange]
  congr 1
  ring

/-- Injectivity of the Miller-index map for a linearly independent 2D basis. -/
lemma G2_injective {b1 b2 : Vec2} (hdet : b1.1 * b2.2 - b1.2 * b2.1 ≠ 0)
    {h k h' k' : ℤ}
    (heq : (((h : ℝ) * b1.1 + (k : ℝ) * b2.1, (h : ℝ) * b1.2 + (k : ℝ) * b2.2) : Vec2)
      = ((h' : ℝ) * b1.1 + (k' : ℝ) * b2.1, (h' : ℝ) * b1.2 + (k' : ℝ) * b2.2)) :
    h = h' ∧ k = k' := by
  rw [Prod.mk.injEq] at heq
  obtain ⟨e1, e2⟩ := heq
  have hh : ((h : ℝ) - h') * (b1.1 * b2.2 - b1.2 * b2.1) = 0 := by
    linear_combination b2.2 * e1 - b2.1 * e2
  have hk : ((k : ℝ) - k') * (b1.1 * b2.2 - b1.2 * b2.1) = 0 := by
    linear_combination b1.1 * e2 - b1.2 * e1
  constructor
  · exact_mod_cast sub_eq_zero.mp ((mul_eq_zero.mp hh).resolve_right hdet)
  · exact_mod_cast sub_eq_zero.mp ((mul_eq_zero.mp hk).resolve_right hdet)

/-- Injectivity of the Miller-index map for a linearly independent 3D basis
(`vol = b1 · (b2 × b3) ≠ 0`), by Cramer's rule. -/
lemma G3_injective {b1 b2 b3 : Vec3} (hvol : vdot3 b1 (vcross b2 b3) ≠ 0)
    {h k l h' k' l' : ℤ}
    (heq : (((h : ℝ) * b1.1 + (k : ℝ) * b2.1 + (l : ℝ) * b3.1,
             (h : ℝ) * b1.2.1 + (k : ℝ) * b2.2.1 + (l : ℝ) * b3.2.1,
             (h : ℝ) * b1.2.2 + (k : ℝ) * b2.2.2 + (l : ℝ) * b3.2.2) : Vec3)
      = ((h' : ℝ) * b1.1 + (k' : ℝ) * b2.1 + (l' : ℝ) * b3.1,
         (h' : ℝ) * b1.2.1 + (k' : ℝ) * b2.2.1 + (l' : ℝ) * b3.2.1,
         (h' : ℝ) * b1.2.2 + (k' : ℝ) * b2.2.2 + (l' : ℝ) * b3.2.2)) :
    h = h' ∧ k = k' ∧ l = l' := by
  rw [Prod.mk.injEq, Prod.mk.injEq] at heq
  obtain ⟨e1, e2, e3⟩ := heq
  simp only [vdot3, vcross] at hvol
  have hh : ((h : ℝ) - h') * (b1.1 * (b2.2.1 * b3.2.2 - b2.2.2 * b3.2.1) +
      b1.2.1 * (b2.2.2 * b3.1 - b2.1 * b3.2.2) +
      b1.2.2 * (b2.1 * b3.2.1 - b2.2.1 * b3.1)) = 0 := by
    linear_combination (b2.2.1 * b3.2.2 - b2.2.2 * b3.2.1) * e1 +
      (b2.2.2 * b3.1 - b2.1 * b3.2.2) * e2 + (b2.1 * b3.2.1 - b2.2.1 * b3.1) * e3
  have hk : ((k : ℝ) - k') * (b1.1 * (b2.2.1 * b3.2.2 - b2.2.2 * b3.2.1) +
      b1.2.1 * (b2.2.2 * b3.1 - b2.1 * b3.2.2) +
      b1.2.2 * (b2.1 * b3.2.1 - b2.2.1 * b3.1)) = 0 := by
    linear_combination (b3.2.1 * b1.2.2 - b3.2.2 * b1.2.1) * e1 +
      (b3.2.2 * b1.1 - b3.1 * b1.2.2) * e2 + (b3.1 * b1.2.1 - b3.2.1 * b1.1) * e3
  have hl : ((l : ℝ) - l') * (b1.1 * (b2.2.1 * b3.2.2 - b2.2.2 * b3.2.1) +
      b1.2.1 * (b2.2.2 * b3.1 - b2.1 * b3.2.2) +
      b1.2.2 * (b2.1 * b3.2.1 - b2.2.1 * b3.1)) = 0 := by
    linear_combination (b1.2.1 * b2.2.2 - b1.2.2 * b2.2.1) * e1 +
      (b1.2.2 * b2.1 - b1.1 * b2.2.2) * e2 + (b1.1 * b2.2.1 - b1.2.1 * b2.1) * e3
  refine ⟨?_, ?_, ?_⟩
  · exact_mod_cast sub_eq_zero.mp ((mul_eq_zero.mp hh).resolve_right hvol)
  · exact_mod_cast sub_eq_zero.mp ((mul_eq_zero.mp hk).resolve_right hvol)
  · exact_mod_cast sub_eq_zero.mp ((mul_eq_zero.mp hl).resolve_right hvol)

/-- Unpack membership in a single enumeration cell. -/
lemma mem_cell2D {b1 b2 : Vec2} {h k : ℤ} {x : Vec2}
    (hx : x ∈ if h = 0 ∧ k = 0 then ([] : List Vec2)
      else [((h : ℝ) * b1.1 + (k : ℝ) * b2.1, (h : ℝ) * b1.2 + (k : ℝ) * b2.2)]) :
    x = ((h : ℝ) * b1.1 + (k : ℝ) * b2.1, (h : ℝ) * b1.2 + (k : ℝ) * b2.2) := by
  by_cases hc : h = 0 ∧ k = 0
  · rw [if_pos hc] at hx
    exact absurd hx (List.not_mem_nil _)
  · rw [if_neg hc] at hx
    exact List.mem_singleton.mp hx

lemma nodup_pointsList2D {b1 b2 : Vec2} (hdet : b1.1 * b2.2 - b1.2 * b2.1 ≠ 0)
    (m : ℕ) : (pointsList2D b1 b2 m).Nodup := by
  unfold pointsList2D
  rw [List.nodup_flatMap]
  constructor
  · intro h _
    rw [List.nodup_flatMap]
    refine ⟨fun k _ => by split_ifs <;> simp, ?_⟩
    refine List.Pairwise.imp ?_ (nodup_intRange m)
    intro k k' hkk x hx hx'
    exact hkk (G2_injective hdet ((mem_cell2D hx).symm.trans (mem_cell2D hx'))).2
  · refine List.Pairwise.imp ?_ (nodup_intRange m)
    intro h h' hhh x hx hx'
    rw [List.mem_flatMap] at hx hx'
    obtain ⟨k, -, hx⟩ := hx
    obtain ⟨k', -, hx'⟩ := hx'
    exact hhh (G2_injective hdet ((mem_cell2D hx).symm.trans (mem_cell2D hx'))).1

/-- Unpack membership in a single 3D enumeration cell. -/
lemma mem_cell3D {b1 b2 b3 : Vec3} {h k l : ℤ} {x : Vec3}
    (hx : x ∈ if h = 0 ∧ k = 0 ∧ l = 0 then ([] : List Vec3)
      else [((h : ℝ) * b1.1 + (k : ℝ) * b2.1 + (l : ℝ) * b3.1,
             (h : ℝ) * b1.2.1 + (k : ℝ) * b2.2.1 + (l : ℝ) * b3.2.1,
             (h : ℝ) * b1.2.2 + (k : ℝ) * b2.2.2 + (l : ℝ) * b3.2.2)]) :
    x = ((h : ℝ) * b1.1 + (k : ℝ) * b2.1 + (l : ℝ) * b3.1,
         (h : ℝ) * b1.2.1 + (k : ℝ) * b2.2.1 + (l : ℝ) * b3.2.1,
         (h : ℝ) * b1.2.2 + (k : ℝ) * b2.2.2 + (l : ℝ) * b3.2.2) := by
  by_cases hc : h = 0 ∧ k = 0 ∧ l = 0
  · rw [if_pos hc] at hx
    exact absurd hx (List.not_mem_nil _)
  · rw [if_neg hc] at hx
    exact List.mem_singleton.mp hx

lemma nodup_pointsList3D {b1 b2 b3 : Vec3} (hvol : vdot3 b1 (vcross b2 b3) ≠ 0)
    (m : ℕ) : (pointsList3D b1 b2 b3 m).Nodup := by
  unfold pointsList3D
  rw [List.nodup_flatMap]
  constructor
  · intro h _
    rw [List.nodup_flatMap]
    constructor
    · intro k _
      rw [List.nodup_flatMap]
      refine ⟨fun l _ => by split_ifs <;> simp, ?_⟩
      refine List.Pairwise.imp ?_ (nodup_intRange m)
      intro l l' hll x hx hx'
      exact hll (G3_injective hvol ((mem_cell3D hx).symm.trans (mem_cell3D hx'))).2.2
    · refine List.Pairwise.imp ?_ (nodup_intRange m)
      intro k k' hkk x hx hx'
      rw [List.mem_flatMap] at hx hx'
      obtain ⟨l, -, hx⟩ := hx
      obtain ⟨l', -, hx'⟩ := hx'
      exact hkk (G3_injective hvol ((mem_cell3D hx).symm.trans (mem_cell3D hx'))).2.1
  · refine List.Pairwise.imp ?_ (nodup_intRange m)
    intro h h' hhh x hx hx'
    rw [List.mem_flatMap] at hx hx'
    obtain ⟨k, -, hx⟩ := hx
    obtain ⟨k', -, hx'⟩ := hx'
    rw [List.mem_flatMap] at hx hx'
    obtain ⟨l, -, hx⟩ := hx
    obtain ⟨l', -, hx'⟩ := hx'
    exact hhh (G3_injective hvol ((mem_cell3D hx).symm.trans (mem_cell3D hx'))).1

lemma sorted_generate2D (b1 b2 : Vec2) (m : ℕ) :
    (generateReciprocalPoints2D b1 b2 m).Pairwise fun a b => vlength a ≤ vlength b := by
  unfold generateReciprocalPoints2D
  refine List.Pairwise.imp ?_ (List.sorted_mergeSort ?_ ?_ (pointsList2D b1 b2 m))
  · intro a b hab
    simpa using hab
  · intro a b c h1 h2
    simp only [decide_eq_true_eq] at *
    exact le_trans h1 h2
  · intro a b
    simpa using le_total (vlength a) (vlength b)

lemma sorted_generate3D (b1 b2 b3 : Vec3) (m : ℕ) :
    (generateReciprocalPoints3D b1 b2 b3 m).Pairwise fun a b => vlength3 a ≤ vlength3 b := by
  unfold generateReciprocalPoints3D
  refine List.Pairwise.imp ?_ (List.sorted_mergeSort ?_ ?_ (pointsList3D b1 b2 b3 m))
  · intro a b hab
    simpa using hab
  · intro a b c h1 h2
    simp only [decide_eq_true_eq] at *
    exact le_trans h1 h2
  · intro a b
    simpa using le_total (vlength3 a) (vlength3 b)

/-- Membership characterisation of the 2D enumeration. -/
lemma mem_pointsList2D {b1 b2 : Vec2} {m : ℕ} {v : Vec2} :
    v ∈ pointsList2D b1 b2 m ↔
      ∃ h k : ℤ, h ∈ intRange m ∧ k ∈ intRange m ∧ ¬ (h = 0 ∧ k = 0) ∧
        v = ((h : ℝ) * b1.1 + (k : ℝ) * b2.1, (h : ℝ) * b1.2 + (k : ℝ) * b2.2) := by
  unfold pointsList2D
  simp only [List.mem_flatMap]
  constructor
  · rintro ⟨h, hh, k, hk, hv⟩
    by_cases hc : h = 0 ∧ k = 0
    · rw [if_pos hc] at hv
      exact absurd hv (List.not_mem_nil _)
    · rw [if_neg hc] at hv
      exact ⟨h, k, hh, hk, hc, List.mem_singleton.mp hv⟩
  · rintro ⟨h, k, hh, hk, hc, rfl⟩
    exact ⟨h, hh, k, hk, by rw [if_neg hc]; exact List.mem_singleton.mpr rfl⟩

/-- **C3 counterexample.**  For the genuine reciprocal basis of the square
lattice (`reciprocal2D` of the unit square basis) and `maxIndex = 1`, the
sorted point list contains both `(2π, 0)` and `(-2π, 0)`, two distinct
points of equal norm, so the norms along the returned sequence are *not*
strictly ascending (adjacent ties exist for every lattice, since `G` and
`-G` always have equal norms). -/
theorem C3_counterexample :
    ¬ (((generateReciprocalPoints2D (reciprocal2D (1, 0) (0, 1)).1
        (reciprocal2D (1, 0) (0, 1)).2 1).map vlength).Chain' (· < ·)) := by
  have hb : reciprocal2D ((1 : ℝ), (0 : ℝ)) (0, 1) = ((2 * Real.pi, 0), (0, 2 * Real.pi)) := by
    unfold reciprocal2D
    norm_num
  rw [hb]
  intro hch
  rw [List.chain'_iff_pairwise] at hch
  have hnd : (((generateReciprocalPoints2D (2 * Real.pi, 0) (0, 2 * Real.pi) 1).map
      vlength)).Nodup := List.Pairwise.imp (fun hab => ne_of_lt hab) hch
  have hrange : (1 : ℤ) ∈ intRange 1 ∧ (0 : ℤ) ∈ intRange 1 ∧ (-1 : ℤ) ∈ intRange 1 := by
    have : intRange 1 = [-1, 0, 1] := by decide
    rw [this]
    simp
  have hmem1 : ((2 * Real.pi, (0 : ℝ)) : Vec2) ∈
      generateReciprocalPoints2D (2 * Real.pi, 0) (0, 2 * Real.pi) 1 := by
    unfold generateReciprocalPoints2D
    rw [List.mem_mergeSort, mem_pointsList2D]
    exact ⟨1, 0, hrange.1, hrange.2.1, by simp, by norm_num⟩
  have hmem2 : ((-(2 * Real.pi), (0 : ℝ)) : Vec2) ∈
      generateReciprocalPoints2D (2 * Real.pi, 0) (0, 2 * Real.pi) 1 := by
    unfold generateReciprocalPoints2D
    rw [List.mem_mergeSort, mem_pointsList2D]
    exact ⟨-1, 0, hrange.2.2, hrange.2.1, by simp, by norm_num⟩
  have hlen : vlength (2 * Real.pi, (0 : ℝ)) = vlength (-(2 * Real.pi), (0 : ℝ)) := by
    unfold vlength vdot
    congr 1
    ring
  have hne : ((2 * Real.pi, (0 : ℝ)) : Vec2) ≠ (-(2 * Real.pi), (0 : ℝ)) := by
    intro hc
    rw [Prod.mk.injEq] at hc
    nlinarith [Real.pi_pos, hc.1]
  exact hne (List.inj_on_of_nodup_map hnd hmem1 hmem2 hlen)

/-- **C3 amended.**  For every `maxIndex ≥ 1` and every *linearly
independent* basis (in particular every genuine reciprocal basis), the
generators return exactly `(2·maxIndex+1)^d − 1` points, with norms
ascending (non-strictly: equal-norm ties such as `G`/`-G` are unavoidable)
along the returned sequence, and no two returned points equal. -/
theorem C3_amended (b1 b2 : Vec2) (c1 c2 c3 : Vec3) (m : ℕ) (_hm : 1 ≤ m)
    (hdet : b1.1 * b2.2 - b1.2 * b2.1 ≠ 0)
    (hvol : vdot3 c1 (vcross c2 c3) ≠ 0) :
    (generateReciprocalPoints2D b1 b2 m).length = (2 * m + 1) ^ 2 - 1 ∧
      ((generateReciprocalPoints2D b1 b2 m).Pairwise fun a b => vlength a ≤ vlength b) ∧
      (generateReciprocalPoints2D b1 b2 m).Nodup ∧
      (generateReciprocalPoints3D c1 c2 c3 m).length = (2 * m + 1) ^ 3 - 1 ∧
      ((generateReciprocalPoints3D c1 c2 c3 m).Pairwise fun a b =>
        vlength3 a ≤ vlength3 b) ∧
      (generateReciprocalPoints3D c1 c2 c3 m).Nodup := by
  refine ⟨?_, sorted_generate2D b1 b2 m, ?_, ?_, sorted_generate3D c1 c2 c3 m, ?_⟩
  · rw [generateReciprocalPoints2D, List.length_mergeSort, length_pointsList2D]
    ring_nf
  · rw [generateReciprocalPoints2D,
      (List.mergeSort_perm (pointsList2D b1 b2 m) _).nodup_iff]
    exact nodup_pointsList2D hdet m
  · rw [generateReciprocalPoints3D, List.length_mergeSort, length_pointsList3D]
    ring_nf
  · rw [generateReciprocalPoints3D,
      (List.mergeSort_perm (pointsList3D c1 c2 c3 m) _).nodup_iff]
    exact nodup_pointsList3D hvol m

/-- Witness for C3's amended claim at the square and cubic reciprocal bases
with `maxIndex = 1`. -/
theorem C3_witness :
    (generateReciprocalPoints2D (2 * Real.pi, 0) (0, 2 * Real.pi) 1).length =
        (2 * 1 + 1) ^ 2 - 1 ∧
      (generateReciprocalPoints3D (2 * Real.pi, 0, 0) (0, 2 * Real.pi, 0)
        (0, 0, 2 * Real.pi) 1).Nodup :=
  ⟨(C3_amended (2 * Real.pi, 0) (0, 2 * Real.pi) (2 * Real.pi, 0, 0) (0, 2 * Real.pi, 0)
      (0, 0, 2 * Real.pi) 1 le_rfl
      (by norm_num [Real.pi_ne_zero])
      (by simp only [vdot3, vcross]; ring_nf; positivity)).1,
   (C3_amended (2 * Real.pi, 0) (0, 2 * Real.pi) (2 * Real.pi, 0, 0) (0, 2 * Real.pi, 0)
      (0, 0, 2 * Real.pi) 1 le_rfl
      (by norm_num [Real.pi_ne_zero])
      (by simp only [vdot3, vcross]; ring_nf; positivity)).2.2.2.2.2⟩

/-! ### C1: the first Brillouin zone of the square lattice -/

lemma pointsE_eq (m : ℕ) :
    pointsList2D (2 * Real.pi, 0) (0, 2 * Real.pi) m =
      (intRange m).flatMap fun h => (intRange m).flatMap fun k =>
        if h = 0 ∧ k = 0 then [] else [Gsq h k] := by
  unfold pointsList2D
  refine List.flatMap_congr fun h _ => List.flatMap_congr fun k _ => ?_
  split_ifs with hc
  · rfl
  · unfold Gsq
    norm_num
    exact ⟨by ring, by ring⟩

lemma vlength_Gsq (h k : ℤ) :
    vlength (Gsq h k) = 2 * Real.pi * Real.sqrt ((h : ℝ) ^ 2 + (k : ℝ) ^ 2) := by
  unfold vlength vdot Gsq
  rw [show 2 * Real.pi * (h : ℝ) * (2 * Real.pi * h) + 2 * Real.pi * k * (2 * Real.pi * k)
      = (2 * Real.pi) ^ 2 * ((h : ℝ) ^ 2 + k ^ 2) by ring]
  rw [Real.sqrt_mul (by positivity), Real.sqrt_sq (by positivity)]

lemma vlength_Gsq_le_iff (h k : ℤ) :
    (vlength (Gsq h k) ≤ 2 * Real.pi) ↔ h ^ 2 + k ^ 2 ≤ 1 := by
  rw [vlength_Gsq, mul_le_iff_le_one_right (by positivity),
    show (1 : ℝ) = Real.sqrt 1 by rw [Real.sqrt_one],
    Real.sqrt_le_sqrt_iff (by positivity)]
  exact_mod_cast Iff.rfl

lemma intRange_succ (m : ℕ) :
    intRange (m + 1) = (-((m : ℤ) + 1)) :: (intRange m ++ [(m : ℤ) + 1]) := by
  unfold intRange
  have e1 : List.range (2 * (m + 1) + 1) =
      (0 :: List.map Nat.succ (List.range (2 * m + 1))) ++ [2 * m + 2] := by
    rw [show 2 * (m + 1) + 1 = (2 * m + 2) + 1 by ring, List.range_succ,
      show 2 * m + 2 = (2 * m + 1) + 1 by ring, List.range_succ_eq_map]
  rw [e1, List.map_append, List.map_cons, List.map_map, List.cons_append]
  have e2 : List.map ((fun i : ℕ => (i : ℤ) - ((m + 1 : ℕ) : ℤ)) ∘ Nat.succ)
      (List.range (2 * m + 1)) =
      List.map (fun i : ℕ => (i : ℤ) - (m : ℤ)) (List.range (2 * m + 1)) := by
    refine List.map_congr_left fun i _ => ?_
    simp only [Function.comp_apply]
    push_cast
    ring
  rw [e2]
  have e3 : ((0 : ℕ) : ℤ) - ((m + 1 : ℕ) : ℤ) = -((m : ℤ) + 1) := by
    push_cast
    ring
  rw [e3]
  have e4 : List.map (fun i : ℕ => (i : ℤ) - ((m + 1 : ℕ) : ℤ)) [2 * m + 2]
      = [(m : ℤ) + 1] := by
    simp only [List.map_cons, List.map_nil, List.cons.injEq, and_true]
    push_cast
    ring
  rw [e4]

lemma intRange_split (m : ℕ) (hm : 1 ≤ m) :
    ∃ s t : List ℤ, intRange m = s ++ [-1, 0, 1] ++ t ∧
      (∀ x ∈ s, x ≤ -2) ∧ (∀ x ∈ t, 2 ≤ x) := by
  induction m with
  | zero => omega
  | succ m ih =>
    rcases Nat.lt_or_ge m 1 with hm1 | hm1
    · have : m = 0 := by omega
      subst this
      refine ⟨[], [], ?_, by simp, by simp⟩
      decide
    · obtain ⟨s, t, heq, hs, ht⟩ := ih hm1
      refine ⟨(-((m : ℤ) + 1)) :: s, t ++ [(m : ℤ) + 1], ?_, ?_, ?_⟩
      · rw [intRange_succ, heq]
        simp
      · intro x hx
        rcases List.mem_cons.mp hx with rfl | hx
        · omega
        · exact le_trans (hs x hx) (by omega)
      · intro x hx
        rcases List.mem_append.mp hx with hx | hx
        · exact ht x hx
        · rcases List.mem_singleton.mp hx with rfl
          omega

lemma smallb_Gsq (h k : ℤ) : smallb (Gsq h k) = decide (h ^ 2 + k ^ 2 ≤ 1) := by
  unfold smallb
  rw [decide_eq_decide]
  exact vlength_Gsq_le_iff h k

lemma filter_small_cell (h k : ℤ) :
    (if h = 0 ∧ k = 0 then ([] : List Vec2) else [Gsq h k]).filter smallb
      = if h ^ 2 + k ^ 2 = 1 then [Gsq h k] else [] := by
  by_cases hc : h = 0 ∧ k = 0
  · rw [if_pos hc, List.filter_nil, if_neg]
    obtain ⟨rfl, rfl⟩ := hc
    decide
  · rw [if_neg hc]
    have h1 : 1 ≤ h ^ 2 + k ^ 2 := by
      rcases not_and_or.mp hc with h0 | h0
      · have h2 : 1 ≤ h ^ 2 := by
          rcases lt_or_gt_of_ne h0 with h1 | h1 <;> nlinarith
        nlinarith [sq_nonneg k]
      · have h2 : 1 ≤ k ^ 2 := by
          rcases lt_or_gt_of_ne h0 with h1 | h1 <;> nlinarith
        nlinarith [sq_nonneg h]
    by_cases hs : h ^ 2 + k ^ 2 = 1
    · rw [if_pos hs]
      have hb : smallb (Gsq h k) = true := by
        rw [smallb_Gsq, decide_eq_true_eq]
        omega
      simp [List.filter, hb]
    · rw [if_neg hs]
      have hb : smallb (Gsq h k) = false := by
        rw [smallb_Gsq]
        simp only [decide_eq_false_iff_not, not_le]
        omega
      simp [List.filter, hb]

lemma filter_small_row_far (m : ℕ) (h : ℤ) (hh : h ≤ -2 ∨ 2 ≤ h) :
    ((intRange m).flatMap fun k => if h = 0 ∧ k = 0 then ([] : List Vec2)
      else [Gsq h k]).filter smallb = [] := by
  rw [List.filter_flatMap, List.flatMap_eq_nil_iff]
  intro k _
  rw [filter_small_cell, if_neg]
  rcases hh with hh | hh <;> nlinarith [sq_nonneg k]

lemma filter_small_row_m1 (m : ℕ) (hm : 1 ≤ m) :
    ((intRange m).flatMap fun k => if (-1 : ℤ) = 0 ∧ k = 0 then ([] : List Vec2)
      else [Gsq (-1) k]).filter smallb = [Gsq (-1) 0] := by
  rw [List.filter_flatMap]
  obtain ⟨s, t, heq, hs, ht⟩ := intRange_split m hm
  rw [heq, List.flatMap_append, List.flatMap_append]
  have hsnil : (s.flatMap fun k =>
      ((if (-1 : ℤ) = 0 ∧ k = 0 then ([] : List Vec2) else [Gsq (-1) k]).filter smallb))
      = [] := by
    rw [List.flatMap_eq_nil_iff]
    intro k hk
    rw [filter_small_cell, if_neg]
    have := hs k hk
    nlinarith
  have htnil : (t.flatMap fun k =>
      ((if (-1 : ℤ) = 0 ∧ k = 0 then ([] : List Vec2) else [Gsq (-1) k]).filter smallb))
      = [] := by
    rw [List.flatMap_eq_nil_iff]
    intro k hk
    rw [filter_small_cell, if_neg]
    have := ht k hk
    nlinarith
  rw [hsnil, htnil]
  have c1 : smallb (Gsq (-1) (-1)) = false := by rw [smallb_Gsq]; decide
  have c2 : smallb (Gsq (-1) 0) = true := by rw [smallb_Gsq]; decide
  have c3 : smallb (Gsq (-1) 1) = false := by rw [smallb_Gsq]; decide
  simp [c1, c2, c3, List.filter]

lemma filter_small_row_0 (m : ℕ) (hm : 1 ≤ m) :
    ((intRange m).flatMap fun k => if (0 : ℤ) = 0 ∧ k = 0 then ([] : List Vec2)
      else [Gsq 0 k]).filter smallb = [Gsq 0 (-1), Gsq 0 1] := by
  rw [List.filter_flatMap]
  obtain ⟨s, t, heq, hs, ht⟩ := intRange_split m hm
  rw [heq, List.flatMap_append, List.flatMap_append]
  have hsnil : (s.flatMap fun k =>
      ((if (0 : ℤ) = 0 ∧ k = 0 then ([] : List Vec2) else [Gsq 0 k]).filter smallb))
      = [] := by
    rw [List.flatMap_eq_nil_iff]
    intro k hk
    rw [filter_small_cell, if_neg]
    have := hs k hk
    nlinarith
  have htnil : (t.flatMap fun k =>
      ((if (0 : ℤ) = 0 ∧ k = 0 then ([] : List Vec2) else [Gsq 0 k]).filter smallb))
      = [] := by
    rw [List.flatMap_eq_nil_iff]
    intro k hk
    rw [filter_small_cell, if_neg]
    have := ht k hk
    nlinarith
  rw [hsnil, htnil]
  have c1 : smallb (Gsq 0 (-1)) = true := by rw [smallb_Gsq]; decide
  have c2 : smallb (Gsq 0 1) = true := by rw [smallb_Gsq]; decide
  simp [c1, c2, List.filter]

lemma filter_small_row_1 (m : ℕ) (hm : 1 ≤ m) :
    ((intRange m).flatMap fun k => if (1 : ℤ) = 0 ∧ k = 0 then ([] : List Vec2)
      else [Gsq 1 k]).filter smallb = [Gsq 1 0] := by
  rw [List.filter_flatMap]
  obtain ⟨s, t, heq, hs, ht⟩ := intRange_split m hm
  rw [heq, List.flatMap_append, List.flatMap_append]
  have hsnil : (s.flatMap fun k =>
      ((if (1 : ℤ) = 0 ∧ k = 0 then ([] : List Vec2) else [Gsq 1 k]).filter smallb))
      = [] := by
    rw [List.flatMap_eq_nil_iff]
    intro k hk
    rw [filter_small_cell, if_neg]
    have := hs k hk
    nlinarith
  have htnil : (t.flatMap fun k =>
      ((if (1 : ℤ) = 0 ∧ k = 0 then ([] : List Vec2) else [Gsq 1 k]).filter smallb))
      = [] := by
    rw [List.flatMap_eq_nil_iff]
    intro k hk
    rw [filter_small_cell, if_neg]
    have := ht k hk
    nlinarith
  rw [hsnil, htnil]
  have c1 : smallb (Gsq 1 (-1)) = false := by rw [smallb_Gsq]; decide
  have c2 : smallb (Gsq 1 0) = true := by rw [smallb_Gsq]; decide
  have c3 : smallb (Gsq 1 1) = false := by rw [smallb_Gsq]; decide
  simp [c1, c2, c3, List.filter]

/-- The four innermost-shell points of the square-lattice enumeration, in
enumeration order. -/
lemma filter_small_E (m : ℕ) (hm : 1 ≤ m) :
    (pointsList2D (2 * Real.pi, 0) (0, 2 * Real.pi) m).filter smallb
      = [Gsq (-1) 0, Gsq 0 (-1), Gsq 0 1, Gsq 1 0] := by
  rw [pointsE_eq, List.filter_flatMap]
  have hrow : ∀ h ∈ intRange m,
      (((intRange m).flatMap fun k => if h = 0 ∧ k = 0 then ([] : List Vec2)
        else [Gsq h k]).filter smallb)
      = (if h = -1 then [Gsq (-1) 0] else if h = 0 then [Gsq 0 (-1), Gsq 0 1]
         else if h = 1 then [Gsq 1 0] else []) := by
    intro h _
    by_cases h1 : h = -1
    · subst h1
      rw [filter_small_row_m1 m hm]
      norm_num
    · by_cases h2 : h = 0
      · subst h2
        rw [filter_small_row_0 m hm]
        norm_num
      · by_cases h3 : h = 1
        · subst h3
          rw [filter_small_row_1 m hm]
          norm_num
        · rw [filter_small_row_far m h (by omega)]
          rw [if_neg h1, if_neg h2, if_neg h3]
  rw [List.flatMap_congr hrow]
  obtain ⟨s, t, heq, hs, ht⟩ := intRange_split m hm
  rw [heq, List.flatMap_append, List.flatMap_append]
  have hsnil : (s.flatMap fun h =>
      (if h = -1 then [Gsq (-1) 0] else if h = 0 then [Gsq 0 (-1), Gsq 0 1]
       else if h = 1 then [Gsq 1 0] else [])) = [] := by
    rw [List.flatMap_eq_nil_iff]
    intro h hh
    have := hs h hh
    rw [if_neg (by omega), if_neg (by omega), if_neg (by omega)]
  have htnil : (t.flatMap fun h =>
      (if h = -1 then [Gsq (-1) 0] else if h = 0 then [Gsq 0 (-1), Gsq 0 1]
       else if h = 1 then [Gsq 1 0] else [])) = [] := by
    rw [List.flatMap_eq_nil_iff]
    intro h hh
    have := ht h hh
    rw [if_neg (by omega), if_neg (by omega), if_neg (by omega)]
  rw [hsnil, htnil]
  norm_num

/-- In a sorted list, a downward-closed predicate splits the list into its
satisfying prefix followed by the rest. -/
lemma sorted_filter_partition {α : Type} {le : α → α → Bool} {P : α → Bool}
    (hdc : ∀ a b, le a b = true → P b = true → P a = true) :
    ∀ {l : List α}, (l.Pairwise fun a b => le a b = true) →
      l = l.filter P ++ l.filter (fun a => ! P a)
  | [], _ => rfl
  | a :: t, hp => by
    have hhead := (List.pairwise_cons.mp hp).1
    have ht := (List.pairwise_cons.mp hp).2
    by_cases hpa : P a = true
    · rw [List.filter_cons_of_pos hpa, List.filter_cons_of_neg (by simp [hpa]),
        List.cons_append]
      exact congrArg (a :: ·) (sorted_filter_partition hdc ht)
    · have hnone : ∀ b ∈ t, P b = false := by
        intro b hb
        by_contra hc
        exact hpa (hdc a b (hhead b hb) (by rwa [← Bool.not_eq_false]))
      have hPt : t.filter P = [] := by
        rw [List.filter_eq_nil_iff]
        intro b hb
        simp [hnone b hb]
      have hPt' : t.filter (fun a => ! P a) = t := by
        rw [List.filter_eq_self]
        intro b hb
        simp [hnone b hb]
      rw [List.filter_cons_of_neg (by simpa using hpa),
        List.filter_cons_of_pos (by simpa using hpa), hPt, hPt', List.nil_append]

/-- The sorted point list of the square lattice is the four unit-shell
points in enumeration order followed by farther integer points. -/
lemma sorted_decomp (m : ℕ) (hm : 1 ≤ m) :
    ∃ B : List Vec2,
      generateReciprocalPoints2D (2 * Real.pi, 0) (0, 2 * Real.pi) m
        = [Gsq (-1) 0, Gsq 0 (-1), Gsq 0 1, Gsq 1 0] ++ B ∧
      ∀ G ∈ B, ∃ h k : ℤ, G = Gsq h k := by
  unfold generateReciprocalPoints2D
  have htrans : ∀ a b c : Vec2, (decide (vlength a ≤ vlength b)) →
      (decide (vlength b ≤ vlength c)) → (decide (vlength a ≤ vlength c)) := by
    intro a b c h1 h2
    simp only [decide_eq_true_eq] at *
    exact le_trans h1 h2
  have htotal : ∀ a b : Vec2,
      (decide (vlength a ≤ vlength b) || decide (vlength b ≤ vlength a)) := by
    intro a b
    simpa using le_total (vlength a) (vlength b)
  have hsorted := List.sorted_mergeSort htrans htotal
    (pointsList2D (2 * Real.pi, 0) (0, 2 * Real.pi) m)
  have hdc : ∀ a b : Vec2, (decide (vlength a ≤ vlength b)) = true →
      smallb b = true → smallb a = true := by
    intro a b h1 h2
    simp only [decide_eq_true_eq] at h1
    simp only [smallb, decide_eq_true_eq] at h2 ⊢
    exact le_trans h1 h2
  have hpart := sorted_filter_partition hdc hsorted
  have hperm := (List.mergeSort_perm (pointsList2D (2 * Real.pi, 0) (0, 2 * Real.pi) m)
    (fun a b => decide (vlength a ≤ vlength b))).filter smallb
  have hlen4 : (((pointsList2D (2 * Real.pi, 0) (0, 2 * Real.pi) m).mergeSort
      fun a b => decide (vlength a ≤ vlength b)).filter smallb).length = 4 := by
    rw [hperm.length_eq, filter_small_E m hm]
    rfl
  have hu1 : smallb (Gsq (-1) 0) = true := by rw [smallb_Gsq]; decide
  have hu2 : smallb (Gsq 0 (-1)) = true := by rw [smallb_Gsq]; decide
  have hu3 : smallb (Gsq 0 1) = true := by rw [smallb_Gsq]; decide
  have hu4 : smallb (Gsq 1 0) = true := by rw [smallb_Gsq]; decide
  have hv : ∀ h k : ℤ, h ^ 2 + k ^ 2 = 1 → vlength (Gsq h k) = 2 * Real.pi := by
    intro h k hk
    have hcast : ((h : ℝ) ^ 2 + (k : ℝ) ^ 2) = 1 := by
      have h2 : ((h ^ 2 + k ^ 2 : ℤ) : ℝ) = ((1 : ℤ) : ℝ) := by rw [hk]
      push_cast at h2
      linarith
    rw [vlength_Gsq, hcast]
    simp
  have hv1 : vlength (Gsq (-1) 0) = 2 * Real.pi := hv _ _ (by decide)
  have hv2 : vlength (Gsq 0 (-1)) = 2 * Real.pi := hv _ _ (by decide)
  have hv3 : vlength (Gsq 0 1) = 2 * Real.pi := hv _ _ (by decide)
  have hv4 : vlength (Gsq 1 0) = 2 * Real.pi := hv _ _ (by decide)
  have hunits_pw : [Gsq (-1) 0, Gsq 0 (-1), Gsq 0 1, Gsq 1 0].Pairwise
      fun a b => (decide (vlength a ≤ vlength b)) = true := by
    simp [List.pairwise_cons, hv1, hv2, hv3, hv4]
  have hunits_sub_E : List.Sublist [Gsq (-1) 0, Gsq 0 (-1), Gsq 0 1, Gsq 1 0]
      (pointsList2D (2 * Real.pi, 0) (0, 2 * Real.pi) m) := by
    rw [← filter_small_E m hm]
    exact List.filter_sublist _
  have hsubS := List.sublist_mergeSort htrans htotal hunits_pw hunits_sub_E
  rw [hpart, List.sublist_append_iff] at hsubS
  obtain ⟨c1, c2, hc, hc1, hc2⟩ := hsubS
  have hc2nil : c2 = [] := by
    cases c2 with
    | nil => rfl
    | cons x xs =>
      exfalso
      have hxB := hc2.subset (List.mem_cons_self x xs)
      have hxU : x ∈ [Gsq (-1) 0, Gsq 0 (-1), Gsq 0 1, Gsq 1 0] := by
        rw [hc]
        exact List.mem_append_right c1 (List.mem_cons_self x xs)
      have h1 : (! smallb x) = true := (List.mem_filter.mp hxB).2
      have h2 : smallb x = true := by
        fin_cases hxU
        · exact hu1
        · exact hu2
        · exact hu3
        · exact hu4
      rw [h2] at h1
      exact absurd h1 (by simp)
  subst hc2nil
  rw [List.append_nil] at hc
  have hA : ((pointsList2D (2 * Real.pi, 0) (0, 2 * Real.pi) m).mergeSort
      fun a b => decide (vlength a ≤ vlength b)).filter smallb
      = [Gsq (-1) 0, Gsq 0 (-1), Gsq 0 1, Gsq 1 0] := by
    rw [← hc1.eq_of_length (by rw [← hc, hlen4]; rfl)]
    exact hc.symm
  refine ⟨((pointsList2D (2 * Real.pi, 0) (0, 2 * Real.pi) m).mergeSort
      fun a b => decide (vlength a ≤ vlength b)).filter (fun a => ! smallb a),
    by rw [← hA]; exact hpart, ?_⟩
  intro G hG
  have hGS : G ∈ (pointsList2D (2 * Real.pi, 0) (0, 2 * Real.pi) m).mergeSort
      fun a b => decide (vlength a ≤ vlength b) := (List.filter_sublist _).subset hG
  have hGE : G ∈ pointsList2D (2 * Real.pi, 0) (0, 2 * Real.pi) m :=
    List.mem_mergeSort.mp hGS
  rw [pointsE_eq, List.mem_flatMap] at hGE
  obtain ⟨h, -, hGE⟩ := hGE
  rw [List.mem_flatMap] at hGE
  obtain ⟨k, -, hGE⟩ := hGE
  refine ⟨h, k, ?_⟩
  by_cases hc0 : h = 0 ∧ k = 0
  · rw [if_pos hc0] at hGE
    exact absurd hGE (List.not_mem_nil _)
  · rw [if_neg hc0] at hGE
    exact List.mem_singleton.mp hGE

/-- Crossing point on a vertical clipping line `c·x = d`, along a horizontal
edge. -/
lemma cross_on_vertical {c d : ℝ} {a b : Vec2} (hc : c ≠ 0)
    (hne : vdot (c, 0) a - d ≠ vdot (c, 0) b - d) (hy : a.2 = b.2) :
    vlerp a b ((vdot (c, 0) a - d) / ((vdot (c, 0) a - d) - (vdot (c, 0) b - d)))
      = (d / c, a.2) := by
  have hb := vdot_vlerp_boundary hne
  set w := vlerp a b ((vdot (c, 0) a - d) / ((vdot (c, 0) a - d) - (vdot (c, 0) b - d)))
    with hw
  refine Prod.ext ?_ ?_
  · simp only [vdot] at hb
    rw [eq_div_iff hc]
    linear_combination hb
  · show a.2 + (b.2 - a.2) * _ = a.2
    rw [hy]
    ring

/-- Crossing point on a horizontal clipping line `c·y = d`, along a vertical
edge. -/
lemma cross_on_horizontal {c d : ℝ} {a b : Vec2} (hc : c ≠ 0)
    (hne : vdot (0, c) a - d ≠ vdot (0, c) b - d) (hx : a.1 = b.1) :
    vlerp a b ((vdot (0, c) a - d) / ((vdot (0, c) a - d) - (vdot (0, c) b - d)))
      = (a.1, d / c) := by
  have hb := vdot_vlerp_boundary hne
  set w := vlerp a b ((vdot (0, c) a - d) / ((vdot (0, c) a - d) - (vdot (0, c) b - d)))
    with hw
  refine Prod.ext ?_ ?_
  · show a.1 + (b.1 - a.1) * _ = a.1
    rw [hx]
    ring
  · simp only [vdot] at hb
    rw [eq_div_iff hc]
    linear_combination hb

lemma clip_sq_step1 :
    clipPolygonByPlane2D [((-100 : ℝ), (-100 : ℝ)), (100, -100), (100, 100), (-100, 100)]
      (-(2 * Real.pi), 0) (2 * Real.pi ^ 2)
      = [(-Real.pi, -100), (100, -100), (100, 100), (-Real.pi, 100)] := by
  have hpi := Real.pi_gt_three
  have hpi4 := Real.pi_lt_four
  have heps : eps = 1 / 1000000000 := rfl
  have hA : (vdot (-(2 * Real.pi), 0) ((-100 : ℝ), (-100 : ℝ)) - 2 * Real.pi ^ 2 ≤ eps)
      = False := by
    simp only [vdot, heps, eq_iff_iff, iff_false, not_le]
    nlinarith
  have hA' : (eps < vdot (-(2 * Real.pi), 0) ((-100 : ℝ), (-100 : ℝ)) - 2 * Real.pi ^ 2)
      = True := by
    simp only [vdot, heps, eq_iff_iff, iff_true]
    nlinarith
  have hB : (vdot (-(2 * Real.pi), 0) ((100 : ℝ), (-100 : ℝ)) - 2 * Real.pi ^ 2 ≤ eps)
      = True := by
    simp only [vdot, heps, eq_iff_iff, iff_true]
    nlinarith
  have hB' : (eps < vdot (-(2 * Real.pi), 0) ((100 : ℝ), (-100 : ℝ)) - 2 * Real.pi ^ 2)
      = False := by
    simp only [vdot, heps, eq_iff_iff, iff_false, not_lt]
    nlinarith
  have hC : (vdot (-(2 * Real.pi), 0) ((100 : ℝ), (100 : ℝ)) - 2 * Real.pi ^ 2 ≤ eps)
      = True := by
    simp only [vdot, heps, eq_iff_iff, iff_true]
    nlinarith
  have hC' : (eps < vdot (-(2 * Real.pi), 0) ((100 : ℝ), (100 : ℝ)) - 2 * Real.pi ^ 2)
      = False := by
    simp only [vdot, heps, eq_iff_iff, iff_false, not_lt]
    nlinarith
  have hD : (vdot (-(2 * Real.pi), 0) ((-100 : ℝ), (100 : ℝ)) - 2 * Real.pi ^ 2 ≤ eps)
      = False := by
    simp only [vdot, heps, eq_iff_iff, iff_false, not_le]
    nlinarith
  have hD' : (eps < vdot (-(2 * Real.pi), 0) ((-100 : ℝ), (100 : ℝ)) - 2 * Real.pi ^ 2)
      = True := by
    simp only [vdot, heps, eq_iff_iff, iff_true]
    nlinarith
  have hc2 : -(2 * Real.pi) ≠ 0 := neg_ne_zero.mpr (by positivity)
  have hcross1 := cross_on_vertical (a := ((-100 : ℝ), (-100 : ℝ)))
    (b := ((100 : ℝ), (-100 : ℝ))) (d := 2 * Real.pi ^ 2) hc2
    (by simp only [vdot]; intro hcon; nlinarith) rfl
  have hcross2 := cross_on_vertical (a := ((100 : ℝ), (100 : ℝ)))
    (b := ((-100 : ℝ), (100 : ℝ))) (d := 2 * Real.pi ^ 2) hc2
    (by simp only [vdot]; intro hcon; nlinarith) rfl
  have hdc : 2 * Real.pi ^ 2 / -(2 * Real.pi) = -Real.pi := by
    field_simp
    ring
  unfold clipPolygonByPlane2D cyclePairs
  rw [show List.rotate [((-100 : ℝ), (-100 : ℝ)), (100, -100), (100, 100), (-100, 100)] 1
      = [(100, -100), (100, 100), (-100, 100), (-100, -100)] from by simp [List.rotate]]
  simp only [List.zip_cons_cons, List.zip_nil_right, List.flatMap_cons, List.flatMap_nil]
  simp only [hA, hA', hB, hB', hC, hC', hD, hD', if_true, if_false]
  rw [hcross1, hcross2, hdc]
  simp

lemma clip_sq_step2 :
    clipPolygonByPlane2D [(-Real.pi, (-100 : ℝ)), (100, -100), (100, 100), (-Real.pi, 100)]
      (0, -(2 * Real.pi)) (2 * Real.pi ^ 2)
      = [((100 : ℝ), -Real.pi), (100, 100), (-Real.pi, 100), (-Real.pi, -Real.pi)] := by
  have hpi := Real.pi_gt_three
  have hpi4 := Real.pi_lt_four
  have heps : eps = 1 / 1000000000 := rfl
  have hA : (vdot (0, -(2 * Real.pi)) (-Real.pi, (-100 : ℝ)) - 2 * Real.pi ^ 2 ≤ eps)
      = False := by
    simp only [vdot, heps, eq_iff_iff, iff_false, not_le]; nlinarith
  have hA' : (eps < vdot (0, -(2 * Real.pi)) (-Real.pi, (-100 : ℝ)) - 2 * Real.pi ^ 2)
      = True := by
    simp only [vdot, heps, eq_iff_iff, iff_true]; nlinarith
  have hB : (vdot (0, -(2 * Real.pi)) ((100 : ℝ), (-100 : ℝ)) - 2 * Real.pi ^ 2 ≤ eps)
      = False := by
    simp only [vdot, heps, eq_iff_iff, iff_false, not_le]; nlinarith
  have hB' : (eps < vdot (0, -(2 * Real.pi)) ((100 : ℝ), (-100 : ℝ)) - 2 * Real.pi ^ 2)
      = True := by
    simp only [vdot, heps, eq_iff_iff, iff_true]; nlinarith
  have hC : (vdot (0, -(2 * Real.pi)) ((100 : ℝ), (100 : ℝ)) - 2 * Real.pi ^ 2 ≤ eps)
      = True := by
    simp only [vdot, heps, eq_iff_iff, iff_true]; nlinarith
  have hC' : (eps < vdot (0, -(2 * Real.pi)) ((100 : ℝ), (100 : ℝ)) - 2 * Real.pi ^ 2)
      = False := by
    simp only [vdot, heps, eq_iff_iff, iff_false, not_lt]; nlinarith
  have hD : (vdot (0, -(2 * Real.pi)) (-Real.pi, (100 : ℝ)) - 2 * Real.pi ^ 2 ≤ eps)
      = True := by
    simp only [vdot, heps, eq_iff_iff, iff_true]; nlinarith
  have hD' : (eps < vdot (0, -(2 * Real.pi)) (-Real.pi, (100 : ℝ)) - 2 * Real.pi ^ 2)
      = False := by
    simp only [vdot, heps, eq_iff_iff, iff_false, not_lt]; nlinarith
  have hc2 : -(2 * Real.pi) ≠ 0 := neg_ne_zero.mpr (by positivity)
  have hcross1 := cross_on_horizontal (a := ((100 : ℝ), (-100 : ℝ)))
    (b := ((100 : ℝ), (100 : ℝ))) (d := 2 * Real.pi ^ 2) hc2
    (by simp only [vdot]; intro hcon; nlinarith) rfl
  have hcross2 := cross_on_horizontal (a := (-Real.pi, (100 : ℝ)))
    (b := (-Real.pi, (-100 : ℝ))) (d := 2 * Real.pi ^ 2) hc2
    (by simp only [vdot]; intro hcon; nlinarith) rfl
  have hdc : 2 * Real.pi ^ 2 / -(2 * Real.pi) = -Real.pi := by
    field_simp
    ring
  unfold clipPolygonByPlane2D cyclePairs
  rw [show List.rotate [(-Real.pi, (-100 : ℝ)), (100, -100), (100, 100), (-Real.pi, 100)] 1
      = [((100 : ℝ), (-100 : ℝ)), (100, 100), (-Real.pi, 100), (-Real.pi, -100)] from by
        simp [List.rotate]]
  simp only [List.zip_cons_cons, List.zip_nil_right, List.flatMap_cons, List.flatMap_nil]
  simp only [hA, hA', hB, hB', hC, hC', hD, hD', if_true, if_false]
  rw [hcross1, hcross2, hdc]
  simp

lemma clip_sq_step3 :
    clipPolygonByPlane2D
      [((100 : ℝ), -Real.pi), (100, 100), (-Real.pi, 100), (-Real.pi, -Real.pi)]
      (0, 2 * Real.pi) (2 * Real.pi ^ 2)
      = [((100 : ℝ), -Real.pi), (100, Real.pi), (-Real.pi, Real.pi),
         (-Real.pi, -Real.pi)] := by
  have hpi := Real.pi_gt_three
  have hpi4 := Real.pi_lt_four
  have heps : eps = 1 / 1000000000 := rfl
  have hA : (vdot (0, 2 * Real.pi) ((100 : ℝ), -Real.pi) - 2 * Real.pi ^ 2 ≤ eps)
      = True := by
    simp only [vdot, heps, eq_iff_iff, iff_true]; nlinarith
  have hA' : (eps < vdot (0, 2 * Real.pi) ((100 : ℝ), -Real.pi) - 2 * Real.pi ^ 2)
      = False := by
    simp only [vdot, heps, eq_iff_iff, iff_false, not_lt]; nlinarith
  have hB : (vdot (0, 2 * Real.pi) ((100 : ℝ), (100 : ℝ)) - 2 * Real.pi ^ 2 ≤ eps)
      = False := by
    simp only [vdot, heps, eq_iff_iff, iff_false, not_le]; nlinarith
  have hB' : (eps < vdot (0, 2 * Real.pi) ((100 : ℝ), (100 : ℝ)) - 2 * Real.pi ^ 2)
      = True := by
    simp only [vdot, heps, eq_iff_iff, iff_true]; nlinarith
  have hC : (vdot (0, 2 * Real.pi) (-Real.pi, (100 : ℝ)) - 2 * Real.pi ^ 2 ≤ eps)
      = False := by
    simp only [vdot, heps, eq_iff_iff, iff_false, not_le]; nlinarith
  have hC' : (eps < vdot (0, 2 * Real.pi) (-Real.pi, (100 : ℝ)) - 2 * Real.pi ^ 2)
      = True := by
    simp only [vdot, heps, eq_iff_iff, iff_true]; nlinarith
  have hD : (vdot (0, 2 * Real.pi) (-Real.pi, -Real.pi) - 2 * Real.pi ^ 2 ≤ eps)
      = True := by
    simp only [vdot, heps, eq_iff_iff, iff_true]; nlinarith
  have hD' : (eps < vdot (0, 2 * Real.pi) (-Real.pi, -Real.pi) - 2 * Real.pi ^ 2)
      = False := by
    simp only [vdot, heps, eq_iff_iff, iff_false, not_lt]; nlinarith
  have hc2 : 2 * Real.pi ≠ 0 := by positivity
  have hcross1 := cross_on_horizontal (a := ((100 : ℝ), -Real.pi))
    (b := ((100 : ℝ), (100 : ℝ))) (d := 2 * Real.pi ^ 2) hc2
    (by simp only [vdot]; intro hcon; nlinarith) rfl
  have hcross2 := cross_on_horizontal (a := (-Real.pi, (100 : ℝ)))
    (b := (-Real.pi, -Real.pi)) (d := 2 * Real.pi ^ 2) hc2
    (by simp only [vdot]; intro hcon; nlinarith) rfl
  have hdc : 2 * Real.pi ^ 2 / (2 * Real.pi) = Real.pi := by
    field_simp
    ring
  unfold clipPolygonByPlane2D cyclePairs
  rw [show List.rotate
      [((100 : ℝ), -Real.pi), (100, 100), (-Real.pi, 100), (-Real.pi, -Real.pi)] 1
      = [((100 : ℝ), (100 : ℝ)), (-Real.pi, 100), (-Real.pi, -Real.pi), (100, -Real.pi)]
      from by simp [List.rotate]]
  simp only [List.zip_cons_cons, List.zip_nil_right, List.flatMap_cons, List.flatMap_nil]
  simp only [hA, hA', hB, hB', hC, hC', hD, hD', if_true, if_false]
  rw [hcross1, hcross2, hdc]
  simp

lemma clip_sq_step4 :
    clipPolygonByPlane2D
      [((100 : ℝ), -Real.pi), (100, Real.pi), (-Real.pi, Real.pi), (-Real.pi, -Real.pi)]
      (2 * Real.pi, 0) (2 * Real.pi ^ 2)
      = [(Real.pi, Real.pi), (-Real.pi, Real.pi), (-Real.pi, -Real.pi),
         (Real.pi, -Real.pi)] := by
  have hpi := Real.pi_gt_three
  have hpi4 := Real.pi_lt_four
  have heps : eps = 1 / 1000000000 := rfl
  have hA : (vdot (2 * Real.pi, 0) ((100 : ℝ), -Real.pi) - 2 * Real.pi ^ 2 ≤ eps)
      = False := by
    simp only [vdot, heps, eq_iff_iff, iff_false, not_le]; nlinarith
  have hA' : (eps < vdot (2 * Real.pi, 0) ((100 : ℝ), -Real.pi) - 2 * Real.pi ^ 2)
      = True := by
    simp only [vdot, heps, eq_iff_iff, iff_true]; nlinarith
  have hB : (vdot (2 * Real.pi, 0) ((100 : ℝ), Real.pi) - 2 * Real.pi ^ 2 ≤ eps)
      = False := by
    simp only [vdot, heps, eq_iff_iff, iff_false, not_le]; nlinarith
  have hB' : (eps < vdot (2 * Real.pi, 0) ((100 : ℝ), Real.pi) - 2 * Real.pi ^ 2)
      = True := by
    simp only [vdot, heps, eq_iff_iff, iff_true]; nlinarith
  have hC : (vdot (2 * Real.pi, 0) (-Real.pi, Real.pi) - 2 * Real.pi ^ 2 ≤ eps)
      = True := by
    simp only [vdot, heps, eq_iff_iff, iff_true]; nlinarith
  have hC' : (eps < vdot (2 * Real.pi, 0) (-Real.pi, Real.pi) - 2 * Real.pi ^ 2)
      = False := by
    simp only [vdot, heps, eq_iff_iff, iff_false, not_lt]; nlinarith
  have hD : (vdot (2 * Real.pi, 0) (-Real.pi, -Real.pi) - 2 * Real.pi ^ 2 ≤ eps)
      = True := by
    simp only [vdot, heps, eq_iff_iff, iff_true]; nlinarith
  have hD' : (eps < vdot (2 * Real.pi, 0) (-Real.pi, -Real.pi) - 2 * Real.pi ^ 2)
      = False := by
    simp only [vdot, heps, eq_iff_iff, iff_false, not_lt]; nlinarith
  have hc2 : 2 * Real.pi ≠ 0 := by positivity
  have hcross1 := cross_on_vertical (a := ((100 : ℝ), Real.pi))
    (b := (-Real.pi, Real.pi)) (d := 2 * Real.pi ^ 2) hc2
    (by simp only [vdot]; intro hcon; nlinarith) rfl
  have hcross2 := cross_on_vertical (a := (-Real.pi, -Real.pi))
    (b := ((100 : ℝ), -Real.pi)) (d := 2 * Real.pi ^ 2) hc2
    (by simp only [vdot]; intro hcon; nlinarith) rfl
  have hdc : 2 * Real.pi ^ 2 / (2 * Real.pi) = Real.pi := by
    field_simp
    ring
  unfold clipPolygonByPlane2D cyclePairs
  rw [show List.rotate
      [((100 : ℝ), -Real.pi), (100, Real.pi), (-Real.pi, Real.pi), (-Real.pi, -Real.pi)] 1
      = [((100 : ℝ), Real.pi), (-Real.pi, Real.pi), (-Real.pi, -Real.pi), (100, -Real.pi)]
      from by simp [List.rotate]]
  simp only [List.zip_cons_cons, List.zip_nil_right, List.flatMap_cons, List.flatMap_nil]
  simp only [hA, hA', hB, hB', hC, hC', hD, hD', if_true, if_false]
  rw [hcross1, hcross2, hdc]
  simp

lemma int_le_sq (z : ℤ) : (z : ℝ) ≤ (z : ℝ) ^ 2 := by
  have hz : z ≤ z ^ 2 := by
    rcases le_or_lt z 0 with h | h
    · nlinarith [sq_nonneg z]
    · have h1 : 1 ≤ z := h
      nlinarith
  exact_mod_cast hz

lemma clip_sq_unchanged (h k : ℤ) :
    clipPolygonByPlane2D
      [(Real.pi, Real.pi), (-Real.pi, Real.pi), (-Real.pi, -Real.pi), (Real.pi, -Real.pi)]
      ((Gsq h k).1, (Gsq h k).2) (vdot (Gsq h k) (Gsq h k) / 2)
      = [(Real.pi, Real.pi), (-Real.pi, Real.pi), (-Real.pi, -Real.pi),
         (Real.pi, -Real.pi)] := by
  apply clip_of_all_kept
  have he : (0 : ℝ) ≤ eps := by norm_num [eps]
  have k1 : 0 ≤ 2 * Real.pi ^ 2 * ((h : ℝ) ^ 2 - h) :=
    mul_nonneg (by positivity) (by linarith [int_le_sq h])
  have k2 : 0 ≤ 2 * Real.pi ^ 2 * ((h : ℝ) ^ 2 + h) := by
    have := int_le_sq (-h)
    push_cast at this
    exact mul_nonneg (by positivity) (by linarith)
  have k3 : 0 ≤ 2 * Real.pi ^ 2 * ((k : ℝ) ^ 2 - k) :=
    mul_nonneg (by positivity) (by linarith [int_le_sq k])
  have k4 : 0 ≤ 2 * Real.pi ^ 2 * ((k : ℝ) ^ 2 + k) := by
    have := int_le_sq (-k)
    push_cast at this
    exact mul_nonneg (by positivity) (by linarith)
  intro v hv
  fin_cases hv <;>
    · simp only [Gsq, vdot]
      nlinarith [k1, k2, k3, k4]

lemma clipLoopBZ_cons (poly : List Vec2) (G : Vec2) (rest : List Vec2)
    (q : List Vec2) (hq : clipPolygonByPlane2D poly (G.1, G.2) (vdot G G / 2) = q)
    (hlen : ¬ q.length < 3) :
    clipLoopBZ poly (G :: rest) = clipLoopBZ q rest := by
  rw [clipLoopBZ]
  simp only [hq]
  rw [if_neg hlen]

lemma clipLoop_keep (B : List Vec2) (hB : ∀ G ∈ B, ∃ h k : ℤ, G = Gsq h k) :
    clipLoopBZ
      [(Real.pi, Real.pi), (-Real.pi, Real.pi), (-Real.pi, -Real.pi), (Real.pi, -Real.pi)]
      B
      = [(Real.pi, Real.pi), (-Real.pi, Real.pi), (-Real.pi, -Real.pi),
         (Real.pi, -Real.pi)] := by
  induction B with
  | nil => rw [clipLoopBZ]
  | cons G rest ih =>
    obtain ⟨h, k, rfl⟩ := hB G (List.mem_cons_self _ _)
    rw [clipLoopBZ_cons _ _ _ _ (clip_sq_unchanged h k) (by norm_num)]
    exact ih fun G hG => hB G (List.mem_cons_of_mem _ hG)

lemma clipLoop_units (B : List Vec2) (hB : ∀ G ∈ B, ∃ h k : ℤ, G = Gsq h k) :
    clipLoopBZ [((-100 : ℝ), (-100 : ℝ)), (100, -100), (100, 100), (-100, 100)]
      ([Gsq (-1) 0, Gsq 0 (-1), Gsq 0 1, Gsq 1 0] ++ B)
      = [(Real.pi, Real.pi), (-Real.pi, Real.pi), (-Real.pi, -Real.pi),
         (Real.pi, -Real.pi)] := by
  have hn1 : ((Gsq (-1) 0).1, (Gsq (-1) 0).2) = ((-(2 * Real.pi), 0) : Vec2) := by
    norm_num [Gsq]
  have hd1 : vdot (Gsq (-1) 0) (Gsq (-1) 0) / 2 = 2 * Real.pi ^ 2 := by
    norm_num [Gsq, vdot]
    ring
  have hn2 : ((Gsq 0 (-1)).1, (Gsq 0 (-1)).2) = ((0, -(2 * Real.pi)) : Vec2) := by
    norm_num [Gsq]
  have hd2 : vdot (Gsq 0 (-1)) (Gsq 0 (-1)) / 2 = 2 * Real.pi ^ 2 := by
    norm_num [Gsq, vdot]
    ring
  have hn3 : ((Gsq 0 1).1, (Gsq 0 1).2) = ((0, 2 * Real.pi) : Vec2) := by
    norm_num [Gsq]
  have hd3 : vdot (Gsq 0 1) (Gsq 0 1) / 2 = 2 * Real.pi ^ 2 := by
    norm_num [Gsq, vdot]
    ring
  have hn4 : ((Gsq 1 0).1, (Gsq 1 0).2) = ((2 * Real.pi, 0) : Vec2) := by
    norm_num [Gsq]
  have hd4 : vdot (Gsq 1 0) (Gsq 1 0) / 2 = 2 * Real.pi ^ 2 := by
    norm_num [Gsq, vdot]
    ring
  have e1 : clipPolygonByPlane2D
      [((-100 : ℝ), (-100 : ℝ)), (100, -100), (100, 100), (-100, 100)]
      ((Gsq (-1) 0).1, (Gsq (-1) 0).2) (vdot (Gsq (-1) 0) (Gsq (-1) 0) / 2)
      = [(-Real.pi, (-100 : ℝ)), (100, -100), (100, 100), (-Real.pi, 100)] := by
    rw [hn1, hd1]
    exact clip_sq_step1
  have e2 : clipPolygonByPlane2D
      [(-Real.pi, (-100 : ℝ)), (100, -100), (100, 100), (-Real.pi, 100)]
      ((Gsq 0 (-1)).1, (Gsq 0 (-1)).2) (vdot (Gsq 0 (-1)) (Gsq 0 (-1)) / 2)
      = [((100 : ℝ), -Real.pi), (100, 100), (-Real.pi, 100), (-Real.pi, -Real.pi)] := by
    rw [hn2, hd2]
    exact clip_sq_step2
  have e3 : clipPolygonByPlane2D
      [((100 : ℝ), -Real.pi), (100, 100), (-Real.pi, 100), (-Real.pi, -Real.pi)]
      ((Gsq 0 1).1, (Gsq 0 1).2) (vdot (Gsq 0 1) (Gsq 0 1) / 2)
      = [((100 : ℝ), -Real.pi), (100, Real.pi), (-Real.pi, Real.pi),
         (-Real.pi, -Real.pi)] := by
    rw [hn3, hd3]
    exact clip_sq_step3
  have e4 : clipPolygonByPlane2D
      [((100 : ℝ), -Real.pi), (100, Real.pi), (-Real.pi, Real.pi), (-Real.pi, -Real.pi)]
      ((Gsq 1 0).1, (Gsq 1 0).2) (vdot (Gsq 1 0) (Gsq 1 0) / 2)
      = [(Real.pi, Real.pi), (-Real.pi, Real.pi), (-Real.pi, -Real.pi),
         (Real.pi, -Real.pi)] := by
    rw [hn4, hd4]
    exact clip_sq_step4
  simp only [List.cons_append, List.nil_append]
  rw [clipLoopBZ_cons _ _ _ _ e1 (by norm_num)]
  rw [clipLoopBZ_cons _ _ _ _ e2 (by norm_num)]
  rw [clipLoopBZ_cons _ _ _ _ e3 (by norm_num)]
  rw [clipLoopBZ_cons _ _ _ _ e4 (by norm_num)]
  exact clipLoop_keep B hB

/-- JS `Array.prototype.sort` returns a permutation of its input, so
`sortPointsCCW` permutes the vertex list. -/
lemma sortPointsCCW_perm (pts : List Vec2) : (sortPointsCCW pts).Perm pts := by
  unfold sortPointsCCW
  split
  · exact List.Perm.refl _
  · exact List.mergeSort_perm _ _

/-- For the square reciprocal basis `b1 = (2π, 0)`, `b2 = (0, 2π)` and any
`maxIndex ≥ 1`, `computeFirstBZ2D` returns a permutation of the four vertices
`(±π, ±π)`. -/
lemma firstBZ_square_core (m : ℕ) (hm : 1 ≤ m) :
    (computeFirstBZ2D
        (generateReciprocalPoints2D (2 * Real.pi, 0) (0, 2 * Real.pi) m)).Perm
      [(Real.pi, Real.pi), (-Real.pi, Real.pi), (-Real.pi, -Real.pi),
       (Real.pi, -Real.pi)] := by
  obtain ⟨B, hEq, hB⟩ := sorted_decomp m hm
  rw [computeFirstBZ2D, hEq]
  rw [show initSquare
      = [((-100 : ℝ), (-100 : ℝ)), (100, -100), (100, 100), (-100, 100)] from rfl]
  rw [clipLoop_units B hB]
  exact sortPointsCCW_perm _

/-- C1: for the square lattice with lattice constant `a = 1` (looked up in
`LATTICE_2D`, any second scale parameter) and every `maxIndex ≥ 1`,
`computeFirstBZ2D` applied to the reciprocal points generated from
`reciprocal2D` of that basis returns the square of side `2π` centered at the
origin: the result is a permutation of `[(π,π), (−π,π), (−π,−π), (π,−π)]`,
and its vertex set is exactly those four points, independently of
`maxIndex`. -/
theorem C1_first_bz_square (m : ℕ) (hm : 1 ≤ m) (gen : ℝ → ℝ → Lattice2D)
    (hgen : LATTICE_2D "square" = some gen) (c : ℝ) :
    (computeFirstBZ2D (generateReciprocalPoints2D
        (reciprocal2D (gen 1 c).a1 (gen 1 c).a2).1
        (reciprocal2D (gen 1 c).a1 (gen 1 c).a2).2 m)).Perm
      [(Real.pi, Real.pi), (-Real.pi, Real.pi), (-Real.pi, -Real.pi),
       (Real.pi, -Real.pi)] ∧
    ∀ v, v ∈ computeFirstBZ2D (generateReciprocalPoints2D
        (reciprocal2D (gen 1 c).a1 (gen 1 c).a2).1
        (reciprocal2D (gen 1 c).a1 (gen 1 c).a2).2 m) ↔
      v = (Real.pi, Real.pi) ∨ v = (-Real.pi, Real.pi) ∨
      v = (-Real.pi, -Real.pi) ∨ v = (Real.pi, -Real.pi) := by
  have hgen2 : (fun a _ => (⟨(a, 0), (0, a), "Square"⟩ : Lattice2D)) = gen := by
    have h0 : LATTICE_2D "square"
        = some fun a _ => (⟨(a, 0), (0, a), "Square"⟩ : Lattice2D) := by
      simp [LATTICE_2D]
    rw [h0] at hgen
    exact Option.some.inj hgen
  have hg : gen 1 c = ⟨(1, 0), (0, 1), "Square"⟩ := by rw [← hgen2]
  rw [hg]
  have hrec : reciprocal2D (⟨(1, 0), (0, 1), "Square"⟩ : Lattice2D).a1
      (⟨(1, 0), (0, 1), "Square"⟩ : Lattice2D).a2
      = ((2 * Real.pi, 0), (0, 2 * Real.pi)) := by
    show reciprocal2D (1, 0) (0, 1) = _
    norm_num [reciprocal2D]
  rw [hrec]
  have hperm := firstBZ_square_core m hm
  refine ⟨hperm, fun v => ?_⟩
  rw [hperm.mem_iff]
  simp

/-- Witness for C1 at `maxIndex = 1`: the hypotheses hold for the concrete
square-lattice generator, and `(π, π)` is a vertex of the computed zone. -/
theorem C1_witness :
    1 ≤ 1 ∧
    (LATTICE_2D "square" = some fun a _ => (⟨(a, 0), (0, a), "Square"⟩ : Lattice2D)) ∧
    (Real.pi, Real.pi) ∈ computeFirstBZ2D (generateReciprocalPoints2D
        (reciprocal2D ((1 : ℝ), (0 : ℝ)) ((0 : ℝ), (1 : ℝ))).1
        (reciprocal2D ((1 : ℝ), (0 : ℝ)) ((0 : ℝ), (1 : ℝ))).2 1) := by
  have hL : LATTICE_2D "square"
      = some fun a _ => (⟨(a, 0), (0, a), "Square"⟩ : Lattice2D) := by
    simp [LATTICE_2D]
  refine ⟨le_refl 1, hL, ?_⟩
  exact ((C1_first_bz_square 1 (le_refl 1) _ hL (3 / 2)).2 (Real.pi, Real.pi)).mpr
    (Or.inl rfl)

end BZV
